import Mathlib

/-!
Verification development for the session/turn orchestration core of a
Telegram relay bot with two interchangeable AI agent backends
("claude" = backend A, "codex" = backend B).

The TypeScript sources are shallowly embedded:
* `src/security.ts`   → command / path safety checks (`checkCommandSafety`,
  `isPathAllowed`); the filesystem-dependent path resolution
  (`expandUserPath` + `normalize` + `realpathSync`/`resolve`) is abstracted
  as a resolver oracle carried in `SecCfg`.
* `src/session.ts`    → session state machine (`setModel`, `stop`,
  `saveSession`, `resumeSession`) and the two streaming turn runners
  (`claudeRun` for `sendMessageStreaming`, `codexRun` for
  `sendMessageStreamingCodex`), modelled as pure functions over explicit
  event lists.  Wall-clock reads (`Date.now()`), the ask-user side channel
  poll and the tool-label formatter (`formatToolStatus`, whose source file
  is not part of the embedded tree) are abstracted as oracles in `RunEnv`;
  the concurrently mutable `stopRequested` flag is modelled by the oracle
  `stopSeen` (value observed at the top of each event iteration) and
  `stopAtCatch` (value observed inside the catch handler).
Machine integers do not occur (JS numbers here are small counters and
string lengths), so `Nat`/`Int` are used directly.
-/

namespace Bot

/-! ### String machinery

JS string primitives used by the sources, modelled over `String` /
`List Char`. -/

/-- Helper for substring search: is `p` an initial run of `l`? -/
def listHasPre : List Char → List Char → Bool
  | [], _ => true
  | _ :: _, [] => false
  | a :: ps, b :: ls => a == b && listHasPre ps ls

/-- Helper for substring search: does `p` occur inside `l`? -/
def listHasSub (p : List Char) : List Char → Bool
  | [] => listHasPre p []
  | c :: ls => listHasPre p (c :: ls) || listHasSub p ls

/-- JS `hay.includes(pat)`. -/
def containsSub (hay pat : String) : Bool := listHasSub pat.data hay.data

/-- JS `toLowerCase()`, over the character list (the core `String.toLower`
is position-based and does not reduce in the kernel). -/
def strLower (s : String) : String := ⟨s.data.map Char.toLower⟩

/-- JS `trim()`: strip leading and trailing whitespace. -/
def strTrim (s : String) : String :=
  ⟨((s.data.dropWhile Char.isWhitespace).reverse.dropWhile
      Char.isWhitespace).reverse⟩

/-- JS `startsWith`. -/
def strStartsWith (s pre : String) : Bool := listHasPre pre.data s.data

/-- JS `slice(0, n)`. -/
def strTake (s : String) (n : Nat) : String := ⟨s.data.take n⟩

/-- JS `slice(n)`. -/
def strDrop (s : String) (n : Nat) : String := ⟨s.data.drop n⟩

/-- JS `\w` word character: `[A-Za-z0-9_]`. -/
def wordChar (c : Char) : Bool := c.isAlphanum || c == '_'

/-! ### Security module (`src/security.ts`) -/

/-- Security configuration: the config constants consumed by
`src/security.ts` plus the filesystem-dependent path resolution,
abstracted as oracles.  `resolvePath` stands for the whole
expand-`~`/`$HOME` → `normalize` → `realpathSync`-or-`resolve` pipeline of
`isPathAllowed`; `resolveAbs` stands for the bare Node `resolve()` applied
to configured allowed paths. -/
structure SecCfg where
  blockedPatterns : List String
  allowedPaths : List String
  tempPaths : List String
  resolvePath : String → String
  resolveAbs : String → String

/-- `BLOCKED_PATTERNS` from `src/config.ts` (the defaults; the list is a
hard-coded constant there). -/
def BLOCKED_PATTERNS : List String :=
  ["rm -rf /", "rm -rf ~", "rm -rf $HOME", "sudo rm",
   ":()\x7b :|:& \x7d;:", "> /dev/sd", "mkfs.", "dd if="]

/-- `isPathAllowed` from `src/security.ts`: resolve the path, always allow
paths under a temp prefix, otherwise require containment in an allowed
path.  The outer try/catch returns `false` on a thrown resolution error;
the resolver oracle is total, so that branch has no counterpart here. -/
def isPathAllowed (sec : SecCfg) (path : String) : Bool :=
  let resolved := sec.resolvePath path
  if sec.tempPaths.any (fun t => strStartsWith resolved t) then true
  else
    sec.allowedPaths.any (fun a =>
      let ar := sec.resolveAbs a
      resolved == ar || strStartsWith resolved (ar ++ "/"))

/-- `stripWrappingQuotes` from `src/security.ts`, over char lists.  A
single quote character both starts and ends with the quote, so it maps to
the empty list, exactly like JS `slice(1, -1)`. -/
def stripWrapQuotes (l : List Char) : List Char :=
  match l.head?, l.getLast? with
  | some a, some b =>
    if (a == '"' && b == '"') || (a == '\'' && b == '\'') then
      (l.drop 1).dropLast
    else l
  | _, _ => l

/-- Scan for the regex `\brm\b` (case-insensitive): an occurrence of
`rm` with non-word characters (or string ends) on both sides.  The first
argument is the character just before the scan position. -/
def hasRmAux : Option Char → List Char → Bool
  | _, [] => false
  | prev, c :: cs =>
    (c.toLower == 'r'
      && (match cs with
          | d :: ds =>
            d.toLower == 'm'
              && (match ds with
                  | [] => true
                  | e :: _ => !wordChar e)
          | [] => false)
      && (match prev with
          | none => true
          | some p => !wordChar p))
    || hasRmAux (some c) cs

/-- JS `/\brm\b/i.test(command)`. -/
def hasRmWord (command : String) : Bool := hasRmAux none command.data

/-- JS `command.split(/&&|\|\||;|\|/)`: split a shell command into
segments at `&&`, `||`, `;`, `|` (in that alternation order, so `||`
consumes both bars). -/
def splitSegsAux : List Char → List Char → List (List Char)
  | cur, [] => [cur.reverse]
  | cur, '&' :: '&' :: rest => cur.reverse :: splitSegsAux [] rest
  | cur, '|' :: '|' :: rest => cur.reverse :: splitSegsAux [] rest
  | cur, ';' :: rest => cur.reverse :: splitSegsAux [] rest
  | cur, '|' :: rest => cur.reverse :: splitSegsAux [] rest
  | cur, c :: rest => splitSegsAux (c :: cur) rest

/-- All shell segments of a command. -/
def splitSegs (command : String) : List (List Char) :=
  splitSegsAux [] command.data

/-- Take the maximal run of non-whitespace characters (`\S+`), returning
the token and the remainder. -/
def takeNonWs : List Char → List Char × List Char
  | [] => ([], [])
  | c :: cs =>
    if c.isWhitespace then ([], c :: cs)
    else
      let p := takeNonWs cs
      (c :: p.1, p.2)

theorem takeNonWs_rest_le (l : List Char) : (takeNonWs l).2.length ≤ l.length := by
  induction l with
  | nil => simp [takeNonWs]
  | cons c cs ih =>
    cases h : c.isWhitespace with
    | true => simp [takeNonWs, h]
    | false =>
      have he : takeNonWs (c :: cs) = (c :: (takeNonWs cs).1, (takeNonWs cs).2) := by
        simp [takeNonWs, h]
      rw [he]
      exact Nat.le_succ_of_le ih

/-- Split a char list at the first occurrence of the quote `q`, returning
the part before it and the part after it. -/
def breakAtQuote (q : Char) : List Char → Option (List Char × List Char)
  | [] => none
  | c :: cs =>
    if c == q then some ([], cs)
    else
      match breakAtQuote q cs with
      | none => none
      | some p => some (c :: p.1, p.2)

theorem breakAtQuote_rest_lt (q : Char) (l : List Char)
    (p : List Char × List Char)
    (h : breakAtQuote q l = some p) : p.2.length < l.length := by
  induction l generalizing p with
  | nil => simp [breakAtQuote] at h
  | cons c cs ih =>
    simp only [breakAtQuote] at h
    split at h
    · cases h
      simp
    · match hb : breakAtQuote q cs with
      | none => rw [hb] at h; simp at h
      | some q2 =>
        rw [hb] at h
        cases h
        exact Nat.lt_succ_of_lt (ih q2 hb)

/-- JS `segment.match(/"[^"]*"|'[^']*'|\S+/g) || []`: scan left to right;
at each position a double- or single-quoted run (when a closing quote
exists) beats the greedy non-whitespace run.  Structured over a fuel
argument so it reduces in the kernel; every iteration consumes at least
one character, so fuel equal to the list length never runs out
(`breakAtQuote_rest_lt` / `takeNonWs_rest_le` are the step bounds). -/
def tokenizeF : Nat → List Char → List (List Char)
  | 0, _ => []
  | _ + 1, [] => []
  | fuel + 1, c :: cs =>
    if c.isWhitespace then tokenizeF fuel cs
    else
      match (if c == '"' then breakAtQuote '"' cs else none) with
      | some p => ('"' :: p.1 ++ ['"']) :: tokenizeF fuel p.2
      | none =>
        match (if c == '\'' then breakAtQuote '\'' cs else none) with
        | some p => ('\'' :: p.1 ++ ['\'']) :: tokenizeF fuel p.2
        | none => (c :: (takeNonWs cs).1) :: tokenizeF fuel (takeNonWs cs).2

/-- The tokenizer at full fuel. -/
def tokenize (l : List Char) : List (List Char) := tokenizeF l.length l

/-- JS `/^(?:\S*\/)?rm$/i.test(tok)`: either `rm` itself, or a token
ending in `/rm` whose leading part contains no whitespace. -/
def isRmToken (tok : List Char) : Bool :=
  (match tok with
   | [a, b] => a.toLower == 'r' && b.toLower == 'm'
   | _ => false)
  ||
  (let n := tok.length
   decide (3 ≤ n)
     && (match tok.drop (n - 3) with
         | [s, a, b] => s == '/' && a.toLower == 'r' && b.toLower == 'm'
         | _ => false)
     && (tok.take (n - 3)).all (fun c => !c.isWhitespace))

/-- `findIndex` of the first `rm` token: the tokens after it are the
candidate `rm` arguments of the segment (`none` when the segment has no
`rm` token). -/
def argsAfterRm : List (List Char) → Option (List (List Char))
  | [] => none
  | t :: ts =>
    if isRmToken (stripWrapQuotes t) then some ts else argsAfterRm ts

/-- Should this `rm` argument be skipped by the safety scan?  JS skips
empty args, flags starting with `-`, and the separator `--` (the last
test is subsumed by the flag test). -/
def skipArg (arg : List Char) : Bool :=
  arg.isEmpty ||
    (match arg with
     | c :: _ => c == '-'
     | [] => true)

/-- The inner loop of the `rm` check: return the first raw argument whose
(dequoted) path is not allowed. -/
def firstRmViolation (sec : SecCfg) : List (List Char) → Option String
  | [] => none
  | raw :: rest =>
    let arg := stripWrapQuotes raw
    if skipArg arg then firstRmViolation sec rest
    else if !isPathAllowed sec (String.mk arg) then some (String.mk raw)
    else firstRmViolation sec rest

/-- The `rm` check for one shell segment. -/
def segViolation (sec : SecCfg) (seg : List Char) : Option String :=
  match argsAfterRm (tokenize seg) with
  | none => none
  | some args => firstRmViolation sec args

/-- The `rm` check across all segments, first violation wins. -/
def rmViolation (sec : SecCfg) : List (List Char) → Option String
  | [] => none
  | seg :: segs =>
    match segViolation sec seg with
    | some r => some r
    | none => rmViolation sec segs

/-- First blocked pattern contained in the lowercased command, if any. -/
def findBlocked (lower : String) : List String → Option String
  | [] => none
  | p :: ps =>
    if containsSub lower (strLower p) then some p else findBlocked lower ps

/-- `checkCommandSafety` from `src/security.ts`.  The JS try/catch around
the `rm` parse returns a "could not parse" rejection on a thrown error;
the parser here is total, so that branch has no counterpart. -/
def checkCommandSafety (sec : SecCfg) (command : String) : Bool × String :=
  match findBlocked (strLower command) sec.blockedPatterns with
  | some p => (false, "Blocked pattern: " ++ p)
  | none =>
    if hasRmWord command then
      match rmViolation sec (splitSegs command) with
      | some raw => (false, "rm target outside allowed paths: " ++ raw)
      | none => (true, "")
    else (true, "")

/-- The non-skipped raw `rm` arguments of one segment. -/
def segTargets (seg : List Char) : List (List Char) :=
  match argsAfterRm (tokenize seg) with
  | none => []
  | some args => args.filter (fun raw => !skipArg (stripWrapQuotes raw))

/-- All dequoted `rm` target paths a command submits to `isPathAllowed`. -/
def rmTargets (command : String) : List String :=
  ((splitSegs command).flatMap segTargets).map
    (fun raw => String.mk (stripWrapQuotes raw))

theorem firstRmViolation_none (sec : SecCfg) (args : List (List Char))
    (h : ∀ raw ∈ args, !skipArg (stripWrapQuotes raw) →
      isPathAllowed sec (String.mk (stripWrapQuotes raw)) = true) :
    firstRmViolation sec args = none := by
  induction args with
  | nil => rfl
  | cons raw rest ih =>
    simp only [firstRmViolation]
    by_cases hs : skipArg (stripWrapQuotes raw) = true
    · simp only [hs, if_true]
      exact ih (fun r hr => h r (List.mem_cons_of_mem _ hr))
    · have hp := h raw (List.mem_cons_self _ _) (by simp [hs])
      simp only [hs, if_false, hp]
      simp only [Bool.not_true, Bool.false_eq_true, if_false]
      exact ih (fun r hr => h r (List.mem_cons_of_mem _ hr))

theorem segViolation_none (sec : SecCfg) (seg : List Char)
    (h : ∀ a ∈ (segTargets seg).map (fun raw => String.mk (stripWrapQuotes raw)),
      isPathAllowed sec a = true) :
    segViolation sec seg = none := by
  simp only [segViolation]
  match ha : argsAfterRm (tokenize seg) with
  | none => rfl
  | some args =>
    apply firstRmViolation_none
    intro raw hraw hskip
    apply h
    simp only [segTargets, ha, List.mem_map]
    exact ⟨raw, List.mem_filter.mpr ⟨hraw, hskip⟩, rfl⟩

theorem rmViolation_none (sec : SecCfg) (segs : List (List Char))
    (h : ∀ a ∈ (segs.flatMap segTargets).map
        (fun raw => String.mk (stripWrapQuotes raw)),
      isPathAllowed sec a = true) :
    rmViolation sec segs = none := by
  induction segs with
  | nil => rfl
  | cons seg rest ih =>
    simp only [rmViolation]
    rw [segViolation_none sec seg (fun a ha => by
      apply h
      simp only [List.flatMap_cons, List.map_append, List.mem_append]
      exact Or.inl ha)]
    exact ih (fun a ha => by
      apply h
      simp only [List.flatMap_cons, List.map_append, List.mem_append]
      exact Or.inr ha)

/-! ### Session state machine (`src/session.ts`) -/

/-- `AssistantMode` (`"claude" | "codex"`). -/
inductive AssistantMode where
  | claude
  | codex
deriving DecidableEq, Repr

/-- `ClaudeReasoningEffort` from `src/config.ts`. -/
inductive ClaudeEffort where
  | low
  | medium
  | high
deriving DecidableEq, Repr

/-- `CodexReasoningEffort` from `src/config.ts`. -/
inductive CodexEffort where
  | minimal
  | low
  | medium
  | high
  | xhigh
deriving DecidableEq, Repr

/-- Lowercase name of a codex effort, as it appears in selection strings
and display strings. -/
def effortName : CodexEffort → String
  | .minimal => "minimal"
  | .low => "low"
  | .medium => "medium"
  | .high => "high"
  | .xhigh => "xhigh"

/-- Lowercase name of a claude effort. -/
def claudeEffortName : ClaudeEffort → String
  | .low => "low"
  | .medium => "medium"
  | .high => "high"

/-- `TokenUsage` from `src/types` (the fields read by the session). -/
structure TokenUsage where
  input_tokens : Nat
  output_tokens : Nat
  cache_read_input_tokens : Nat
  cache_creation_input_tokens : Nat
deriving DecidableEq, Repr

/-- The environment-derived config constants consumed by `setModel`
(`CLAUDE_MODEL`, `CODEX_MODEL`, `CODEX_REASONING_EFFORT`). -/
structure EnvCfg where
  claudeModel : String
  codexModel : String
  codexEffort : CodexEffort
deriving DecidableEq, Repr

/-- The defaults of `src/config.ts` when no environment override is set. -/
def defaultEnv : EnvCfg :=
  { claudeModel := "claude-opus-4-6"
    codexModel := "gpt-5.3-codex"
    codexEffort := .medium }

/-- The mutable fields of `class ClaudeSession`.  `Date` values are
abstracted as `Option Nat` timestamps; `abortCtrl` records whether
`this.abortController` is non-null. -/
structure Session where
  sessionId : Option String
  lastActivity : Option Nat
  queryStarted : Option Nat
  currentTool : Option String
  lastTool : Option String
  lastError : Option String
  lastErrorTime : Option Nat
  lastUsage : Option TokenUsage
  lastMessage : Option String
  conversationTitle : Option String
  assistantMode : AssistantMode
  claudeModel : String
  claudeEffort : ClaudeEffort
  codexModel : String
  codexEffort : CodexEffort
  abortCtrl : Bool
  isQueryRunning : Bool
  stopRequested : Bool
  isProcessing : Bool
  wasInterruptedByNewMessage : Bool
deriving DecidableEq, Repr

/-- A fresh `ClaudeSession` for a given config (the field initializers of
the class). -/
def initSession (env : EnvCfg) (mode : AssistantMode)
    (claudeEffort : ClaudeEffort) : Session :=
  { sessionId := none
    lastActivity := none
    queryStarted := none
    currentTool := none
    lastTool := none
    lastError := none
    lastErrorTime := none
    lastUsage := none
    lastMessage := none
    conversationTitle := none
    assistantMode := mode
    claudeModel := env.claudeModel
    claudeEffort := claudeEffort
    codexModel := env.codexModel
    codexEffort := env.codexEffort
    abortCtrl := false
    isQueryRunning := false
    stopRequested := false
    isProcessing := false
    wasInterruptedByNewMessage := false }

/-- The `model` getter: the model of the active assistant. -/
def activeModel (s : Session) : String :=
  match s.assistantMode with
  | .codex => s.codexModel
  | .claude => s.claudeModel

/-- The active configuration named by the spec: assistant kind, model id
and the active backend's reasoning effort (rendered as its name so the
two effort enums live in one type). -/
def activeCfg (s : Session) : AssistantMode × String × String :=
  ⟨s.assistantMode, activeModel s,
    match s.assistantMode with
    | .codex => effortName s.codexEffort
    | .claude => claudeEffortName s.claudeEffort⟩

/-- `compactToken`: lowercase, then drop every `[\s._-]` character (the
JS `replace(/[\s._-]+/g, "")`). -/
def compactToken (value : String) : String :=
  String.mk ((strLower value).data.filter
    (fun c => !(c.isWhitespace || c == '.' || c == '_' || c == '-')))

/-- `isCodexAlias`. -/
def isCodexAlias (base : String) : Bool := compactToken base == "codex"

/-- `isCodex53Alias`. -/
def isCodex53Alias (base : String) : Bool :=
  compactToken base == "codex53" || compactToken base == "gpt53codex"

/-- The closed effort-token set recognised by `parseEffortToken`. -/
def effortOfString (s : String) : Option CodexEffort :=
  if s = "minimal" then some .minimal
  else if s = "low" then some .low
  else if s = "medium" then some .medium
  else if s = "high" then some .high
  else if s = "xhigh" then some .xhigh
  else none

/-- `parseEffortToken`. -/
def parseEffortToken (token : String) : Option CodexEffort :=
  effortOfString (compactToken token)

/-- `parseClaudeAlias`. -/
def parseClaudeAlias (selection : String) : Option String :=
  let compact := compactToken selection
  if compact == "claude46opus" || compact == "opus46" then
    some "claude-opus-4-6"
  else if compact == "claude45sonnet" || compact == "sonnet45" then
    some "claude-sonnet-4-5"
  else none

/-- Character class `[\s_-]` of the spaced preset regex. -/
def sepChar (c : Char) : Bool := c.isWhitespace || c == '_' || c == '-'

/-- Match the tail `[\s_-]+(minimal|low|medium|high|xhigh)$` against the
remainder of the selection: a non-empty separator run followed exactly by
an effort token. -/
def tailEffortSplit (l : List Char) : Option CodexEffort :=
  let seps := l.takeWhile sepChar
  let rem := l.dropWhile sepChar
  if seps.isEmpty then none else effortOfString (String.mk rem)

/-- The lazy group `(.*?)` of `/^(.*?)[\s_-]+(effort)$/`: try the
shortest base first, scanning left to right. -/
def findSpacedMatch : List Char → List Char → Option (String × CodexEffort)
  | acc, rest =>
    match tailEffortSplit rest with
    | some e => some (String.mk acc.reverse, e)
    | none =>
      match rest with
      | [] => none
      | c :: cs => findSpacedMatch (c :: acc) cs

/-- The compact fallback `/^(codex53|gpt53codex|codex)(effort)$/`:
alternatives tried left to right, each requiring the remainder to be an
effort token. -/
def altMatch (alt compact : String) : Option CodexEffort :=
  if strStartsWith compact alt then
    effortOfString (strDrop compact alt.length)
  else none

/-- `parseCodexPreset`. -/
def parseCodexPreset (env : EnvCfg) (selection : String) :
    Option (String × CodexEffort) :=
  let normalized := strTrim (strLower selection)
  let compactPart :=
    let compact := compactToken selection
    match altMatch "codex53" compact with
    | some e => some ("gpt-5.3-codex", e)
    | none =>
      match altMatch "gpt53codex" compact with
      | some e => some ("gpt-5.3-codex", e)
      | none =>
        match altMatch "codex" compact with
        | some e => some (env.codexModel, e)
        | none => none
  match findSpacedMatch [] normalized.data with
  | some (baseRaw, eff) =>
    let base := strTrim baseRaw
    if isCodex53Alias base then some ("gpt-5.3-codex", eff)
    else if isCodexAlias base then some (env.codexModel, eff)
    else compactPart
  | none => compactPart

/-- The `modelDisplay` getter. -/
def modelDisplay (s : Session) : String :=
  match s.assistantMode with
  | .codex =>
    if compactToken s.codexModel == "gpt53codex" then
      "codex 5.3 " ++ effortName s.codexEffort
    else
      s.codexModel ++ " (" ++ effortName s.codexEffort ++ ")"
  | .claude =>
    if compactToken s.claudeModel == "claudeopus46" then "opus 4.6"
    else if compactToken s.claudeModel == "claudesonnet45" then "sonnet 4.5"
    else s.claudeModel

/-- `this.assistantMode.toUpperCase()`. -/
def modeUpper : AssistantMode → String
  | .claude => "CLAUDE"
  | .codex => "CODEX"

/-- The tail of `setModel` shared by all successful parse branches: the
`changed` comparison against the previous identity, the session reset on
change, and the result messages. -/
def finishSetModel (prevAssistant : AssistantMode) (prevModel : String)
    (prevCodexEffort : CodexEffort) (s1 : Session) :
    Session × Bool × String :=
  if prevAssistant ≠ s1.assistantMode ∨ prevModel ≠ activeModel s1 ∨
      prevCodexEffort ≠ s1.codexEffort then
    ({ s1 with
        sessionId := none
        lastActivity := none
        queryStarted := none
        currentTool := none
        lastTool := none
        lastUsage := none
        lastError := none
        lastErrorTime := none },
      true,
      "Model switched to " ++ modelDisplay s1 ++ " (" ++
        modeUpper s1.assistantMode ++ "). Started a fresh session.")
  else
    (s1, true,
      "Model unchanged: " ++ modelDisplay s1 ++ " (" ++
        modeUpper s1.assistantMode ++ ")")

/-- `ClaudeSession.setModel`. -/
def setModel (env : EnvCfg) (s : Session) (selectionRaw : String) :
    Session × Bool × String :=
  let selection := strTrim selectionRaw
  if selection = "" then
    (s, false, "Usage: /model <opus 4.6|sonnet 4.5|codex 5.3 high|...>")
  else
    let normalized := strLower selection
    let prevAssistant := s.assistantMode
    let prevModel := activeModel s
    let prevCodexEffort := s.codexEffort
    match parseCodexPreset env selection with
    | some (m, e) =>
      finishSetModel prevAssistant prevModel prevCodexEffort
        { s with assistantMode := .codex, codexModel := m, codexEffort := e }
    | none =>
      match parseClaudeAlias selection with
      | some a =>
        finishSetModel prevAssistant prevModel prevCodexEffort
          { s with assistantMode := .claude, claudeModel := a }
      | none =>
        if normalized = "claude" then
          finishSetModel prevAssistant prevModel prevCodexEffort
            { s with assistantMode := .claude, claudeModel := env.claudeModel }
        else if normalized = "codex" then
          finishSetModel prevAssistant prevModel prevCodexEffort
            { s with
                assistantMode := .codex
                codexModel := env.codexModel
                codexEffort := env.codexEffort }
        else if strStartsWith normalized "claude" then
          (s, false, "Claude models: \x27opus 4.6\x27 or \x27sonnet 4.5\x27")
        else
          finishSetModel prevAssistant prevModel prevCodexEffort
            { s with assistantMode := .codex, codexModel := selection }

/-! ### Stop / interrupt controller -/

/-- Result of `ClaudeSession.stop()`: `"stopped" | "pending" | false`. -/
inductive StopRes where
  | stopped
  | pending
  | idle
deriving DecidableEq, Repr

/-- `ClaudeSession.stop`.  The call on the abort controller is an effect
on the backend stream; the session-state effect is setting
`stopRequested`. -/
def stopSession (s : Session) : Session × StopRes :=
  if s.isQueryRunning ∧ s.abortCtrl then
    ({ s with stopRequested := true }, .stopped)
  else if s.isQueryRunning then
    ({ s with stopRequested := true }, .stopped)
  else if s.isProcessing then
    ({ s with stopRequested := true }, .pending)
  else
    (s, .idle)

/-- `ClaudeSession.consumeInterruptFlag`. -/
def consumeInterruptFlag (s : Session) : Session × Bool :=
  let was := s.wasInterruptedByNewMessage
  let s := { s with wasInterruptedByNewMessage := false }
  if was then ({ s with stopRequested := false }, was) else (s, was)

/-- `ClaudeSession.markInterrupt`. -/
def markInterrupt (s : Session) : Session :=
  { s with wasInterruptedByNewMessage := true }

/-! ### Session persistence -/

/-- `SavedSession` from `src/types`.  `working_dir`, `assistant`, `model`
and `codex_reasoning_effort` are optional because the history file may
hold legacy entries without them. -/
structure SavedSession where
  session_id : String
  saved_at : String
  working_dir : Option String
  title : String
  assistant : Option AssistantMode
  model : Option String
  codex_reasoning_effort : Option CodexEffort
deriving DecidableEq, Repr

/-- `MAX_SESSIONS`. -/
def MAX_SESSIONS : Nat := 5

/-- The `SavedSession` entry `ClaudeSession.saveSession` builds for the
session's current identity. -/
def mkSavedEntry (s : Session) (sid workDir savedAt : String) :
    SavedSession :=
  { session_id := sid
    saved_at := savedAt
    working_dir := some workDir
    title := s.conversationTitle.getD "Sessione senza titolo"
    assistant := some s.assistantMode
    model := some (activeModel s)
    codex_reasoning_effort :=
      if s.assistantMode = .codex then some s.codexEffort else none }

/-- Replace the first entry whose id matches `sid` (JS `findIndex` +
in-place assignment); `none` when no entry matches. -/
def upsertById (sid : String) (e : SavedSession) :
    List SavedSession → Option (List SavedSession)
  | [] => none
  | x :: xs =>
    if x.session_id = sid then some (e :: xs)
    else (upsertById sid e xs).map (fun r => x :: r)

/-- `ClaudeSession.saveSession` as a pure operation on the loaded history
list: build the entry, update in place or unshift, truncate to
`MAX_SESSIONS`.  A null `sessionId` is a no-op, and the disk write itself
is outside the model (`PersistFailed` is soft). -/
def saveSession (s : Session) (workDir savedAt : String)
    (hist : List SavedSession) : List SavedSession :=
  match s.sessionId with
  | none => hist
  | some sid =>
    let entry := mkSavedEntry s sid workDir savedAt
    match upsertById sid entry hist with
    | some h2 => h2.take MAX_SESSIONS
    | none => (entry :: hist).take MAX_SESSIONS

/-- `ClaudeSession.getSessionList`: entries whose working directory is
absent, empty (JS falsy) or equal to the current one. -/
def getSessionList (workDir : String) (hist : List SavedSession) :
    List SavedSession :=
  hist.filter (fun e =>
    match e.working_dir with
    | none => true
    | some d => d = "" || d = workDir)

/-- `ClaudeSession.resumeSession`.  `now` abstracts `new Date()`. -/
def resumeSession (workDir : String) (now : Nat)
    (hist : List SavedSession) (s : Session) (sid : String) :
    Session × Bool × String :=
  match hist.find? (fun e => e.session_id = sid) with
  | none => (s, false, "Sessione non trovata")
  | some e =>
    if e.working_dir.getD "" ≠ "" ∧ e.working_dir.getD "" ≠ workDir then
      (s, false, "Sessione per directory diversa: " ++ e.working_dir.getD "")
    else
      let s1 := { s with
        sessionId := some e.session_id
        conversationTitle := some e.title
        lastActivity := some now }
      let s2 :=
        match e.assistant with
        | some a => { s1 with assistantMode := a }
        | none => s1
      let s3 :=
        match e.model with
        | some m =>
          if s2.assistantMode = .codex then
            match e.codex_reasoning_effort with
            | some eff => { s2 with codexModel := m, codexEffort := eff }
            | none => { s2 with codexModel := m }
          else
            { s2 with claudeModel := m }
        | none => s2
      (s3, true, "Ripresa sessione: \"" ++ e.title ++ "\"")

/-- The invariant of the persisted history: bounded at `MAX_SESSIONS`
entries, no two entries sharing a backend session id. -/
def histInv (h : List SavedSession) : Prop :=
  h.length ≤ MAX_SESSIONS ∧ (h.map (fun e => e.session_id)).Nodup

/-! ### The unified status-event contract -/

/-- `StatusEvent`: the unified callback contract
(`statusCallback(type, content, segmentId?)`). -/
inductive StatusEvent where
  | thinking (text : String)
  | tool (label : String)
  | text (content : String) (segmentId : Nat)
  | segment_end (content : String) (segmentId : Nat)
  | done
deriving DecidableEq, Repr

/-- Streaming normalizer constants (`STREAMING_*` in `src/config.ts`). -/
structure StreamCfg where
  throttleMs : Nat
  fallbackMinChars : Nat
  stepChars : Nat
  stepDelayMs : Nat
deriving DecidableEq, Repr

/-- The `src/config.ts` defaults (250 / 280 / 220 / 80). -/
def defaultStream : StreamCfg :=
  { throttleMs := 250, fallbackMinChars := 280, stepChars := 220,
    stepDelayMs := 80 }

/-- Ambient inputs of one turn that the TypeScript obtains from the
outside world, abstracted as oracles:

* `fmtTool` — modelled from the spec: `formatToolStatus` lives in
  `src/formatting.ts`, which is not part of the embedded tree; the spec
  says only that a tool event carries "a human-readable label", so the
  formatter is an opaque function of the tool name and its two inputs.
* `fmtDate` — the `toLocaleDateString` rendering used by the one-time
  date preamble.
* `clock` — successive `Date.now()` readings, indexed by call count.
* `askPoll` — successive `checkPendingAskUserRequests` results, indexed
  by call count.
* `hasCtx` — whether `ctx` and `chatId` were supplied to the turn.
* `stopSeen` — the value of the concurrently mutable `stopRequested`
  flag as observed by the check at the top of event iteration `n`.
* `stopAtCatch` — the value of `stopRequested` as observed inside the
  catch handler.
* `threadId` — the codex `thread.id` available at `turn.completed`
  (`none` models a null/absent id). -/
structure RunEnv where
  sec : SecCfg
  stream : StreamCfg
  fmtTool : String → String → String → String
  fmtDate : String
  clock : Nat → Nat
  askPoll : Nat → Bool
  hasCtx : Bool
  stopSeen : Nat → Bool
  stopAtCatch : Bool
  threadId : Option String

/-! ### Backend event vocabularies -/

/-- Content block of a backend-A (`claude`) assistant message.  For
`tool_use`, the two input fields the session reads are
`toolInput.command` (Bash) and `toolInput.file_path` (Read/Write/Edit);
JS `String(x || "")` makes an absent field the empty string. -/
inductive ContentBlock where
  | thinking (text : String)
  | tool_use (name : String) (command : String) (filePath : String)
  | text (s : String)
deriving DecidableEq, Repr

/-- Kind of a backend-A SDK message. -/
inductive ClaudeEventKind where
  | assistant (content : List ContentBlock)
  | result (usage : Option TokenUsage)
  | other
deriving DecidableEq, Repr

/-- A backend-A SDK message: any event may carry a `session_id`. -/
structure ClaudeEvent where
  session_id : Option String
  kind : ClaudeEventKind
deriving DecidableEq, Repr

/-- A completed backend-B (`codex`) thread item. -/
inductive CodexItem where
  | reasoning (text : String)
  | command_execution (command : String)
  | agent_message (text : String)
  | other
deriving DecidableEq, Repr

/-- A backend-B stream event.  Empty strings model JS-falsy absent
messages (`event.message || …`, `event.error?.message || …`). -/
inductive CodexEvent where
  | error (message : String)
  | turn_failed (message : String)
  | item_completed (item : Option CodexItem)
  | turn_completed
  | other
deriving DecidableEq, Repr

/-! ### Turn runner -/

/-- The local mutable state of one streaming turn: the session fields the
loop mutates plus the function-local variables of
`sendMessageStreaming`/`sendMessageStreamingCodex`.  `savedLog` records
the backend session ids passed to `saveSession` during the turn. -/
structure LoopSt where
  sess : Session
  responseParts : List String
  segId : Nat
  segText : String
  lastTextUpdate : Nat
  textCallbackCount : Nat
  lastEmittedLen : Nat
  queryCompleted : Bool
  askUserTriggered : Bool
  clockIdx : Nat
  pollIdx : Nat
  eventIdx : Nat
  savedLog : List String

/-- How the backend event loop was left. -/
inductive LoopExit where
  | finished
  | stopBreak
  | askBreak
  | completedBreak
  | raised (msg : String)
deriving DecidableEq, Repr

/-- Fresh loop state at the top of the try block. -/
def initLoopSt (s : Session) : LoopSt :=
  { sess := s
    responseParts := []
    segId := 0
    segText := ""
    lastTextUpdate := 0
    textCallbackCount := 0
    lastEmittedLen := 0
    queryCompleted := false
    askUserTriggered := false
    clockIdx := 0
    pollIdx := 0
    eventIdx := 0
    savedLog := [] }

/-- `errorStr.includes("cancel") || errorStr.includes("abort")` where
`errorStr = String(error).toLowerCase()`; stringifying an `Error` yields
`"Error: " ++ message`. -/
def cancelShaped (msg : String) : Bool :=
  let errorStr := strLower ("Error: " ++ msg)
  containsSub errorStr "cancel" || containsSub errorStr "abort"

/-- `String(error).slice(0, 100)` as recorded into `lastError`. -/
def errTrunc (msg : String) : String := strTake ("Error: " ++ msg) 100

/-- `responseParts.join("") || defaultText`. -/
def joinOr (parts : List String) (dflt : String) : String :=
  let j := String.join parts
  if j = "" then dflt else j

/-- Process one text content block: append to the response and to the
current segment, then decide what to emit — the synthetic short prefix on
a first snapshot-sized update, the full accumulated text on the first
update or after the throttle interval, or nothing. -/
def emitTextBlock (env : RunEnv) (st : LoopSt) (blockText : String) :
    LoopSt × List StatusEvent :=
  let st := { st with
    responseParts := st.responseParts ++ [blockText]
    segText := st.segText ++ blockText }
  if st.textCallbackCount = 0 ∧
      env.stream.fallbackMinChars ≤ st.segText.length then
    let firstPreviewLen :=
      max 1 (min env.stream.stepChars (st.segText.length - 1))
    ({ st with
        textCallbackCount := st.textCallbackCount + 1
        lastEmittedLen := firstPreviewLen
        lastTextUpdate := env.clock st.clockIdx
        clockIdx := st.clockIdx + 1 },
      [.text (strTake st.segText firstPreviewLen) st.segId])
  else
    let now := env.clock st.clockIdx
    let st := { st with clockIdx := st.clockIdx + 1 }
    if st.textCallbackCount = 0 ∨
        (env.stream.throttleMs : Int) ≤ (now : Int) - (st.lastTextUpdate : Int) then
      ({ st with
          lastTextUpdate := now
          textCallbackCount := st.textCallbackCount + 1
          lastEmittedLen := st.segText.length },
        [.text st.segText st.segId])
    else (st, [])

/-- Close the open text segment before a tool event: emit its
`segment_end` and allocate the next segment id. -/
def closeSegment (st : LoopSt) : LoopSt × List StatusEvent :=
  if st.segText = "" then (st, [])
  else
    ({ st with segId := st.segId + 1, segText := "" },
      [.segment_end st.segText st.segId])

/-- The bounded ask-user side-channel poll: up to 3 attempts, stopping at
the first success. -/
def pollAskUser (env : RunEnv) (idx : Nat) : Bool × Nat :=
  if env.askPoll idx then (true, idx + 1)
  else if env.askPoll (idx + 1) then (true, idx + 2)
  else (env.askPoll (idx + 2), idx + 3)

/-- Process one backend-A `tool_use` block: Bash commands go through
`checkCommandSafety`, file operations through the temp-read exception and
`isPathAllowed`; a rejection emits the blocking `tool` event and raises.
Otherwise the open segment is closed, the tool label is shown (suppressed
for the ask-user tool, which instead polls the side channel). -/
def processToolUse (env : RunEnv) (st : LoopSt)
    (name command filePath : String) :
    LoopSt × List StatusEvent × Option String :=
  if name = "Bash" ∧ (checkCommandSafety env.sec command).1 = false then
    let reason := (checkCommandSafety env.sec command).2
    (st, [.tool ("BLOCKED: " ++ reason)],
      some ("Unsafe command blocked: " ++ reason))
  else if (name = "Read" ∨ name = "Write" ∨ name = "Edit") ∧ filePath ≠ "" ∧
      ¬(name = "Read" ∧
        ((env.sec.tempPaths.any (fun p => strStartsWith filePath p)) = true ∨
          containsSub filePath "/.claude/" = true)) ∧
      isPathAllowed env.sec filePath = false then
    (st, [.tool ("Access denied: " ++ filePath)],
      some ("File access blocked: " ++ filePath))
  else
    let p := closeSegment st
    let toolDisplay := env.fmtTool name command filePath
    let st1 := { p.1 with sess := { p.1.sess with
      currentTool := some toolDisplay, lastTool := some toolDisplay } }
    let toolOut :=
      if strStartsWith name "mcp__ask-user" then ([] : List StatusEvent)
      else [.tool toolDisplay]
    let st2 :=
      if strStartsWith name "mcp__ask-user" ∧ env.hasCtx then
        let q := pollAskUser env st1.pollIdx
        { st1 with
            pollIdx := q.2
            askUserTriggered := st1.askUserTriggered || q.1 }
      else st1
    (st2, p.2 ++ toolOut, none)

/-- Capture a backend-A session id on its first occurrence and persist
(`saveSession`); the persisted id is logged in `savedLog`. -/
def captureSession (e : ClaudeEvent) (st : LoopSt) : LoopSt :=
  match st.sess.sessionId, e.session_id with
  | none, some sid =>
    { st with
        sess := { st.sess with sessionId := some sid }
        savedLog := st.savedLog ++ [sid] }
  | _, _ => st

/-- Process the content blocks of one backend-A assistant message in
order; a safety rejection raises and leaves the remaining blocks
unprocessed. -/
def processBlocks (env : RunEnv) :
    List ContentBlock → LoopSt → LoopSt × List StatusEvent × Option String
  | [], st => (st, [], none)
  | b :: bs, st =>
    match b with
    | .thinking t =>
      let ems := if t ≠ "" then [StatusEvent.thinking t] else []
      let r := processBlocks env bs st
      (r.1, ems ++ r.2.1, r.2.2)
    | .tool_use name cmd fp =>
      match processToolUse env st name cmd fp with
      | (st1, ems, some err) => (st1, ems, some err)
      | (st1, ems, none) =>
        let r := processBlocks env bs st1
        (r.1, ems ++ r.2.1, r.2.2)
    | .text t =>
      let p := emitTextBlock env st t
      let r := processBlocks env bs p.1
      (r.1, p.2 ++ r.2.1, r.2.2)

/-- One iteration of the backend-A event loop of
`sendMessageStreaming`: check the stop flag, capture the session id, then
dispatch on the message type.  A `result` message marks completion (and
records usage) without breaking; an ask-user trigger breaks after its
event's blocks.  `some exit` means the loop is left. -/
def claudeStep (env : RunEnv) (e : ClaudeEvent) (st : LoopSt) :
    LoopSt × List StatusEvent × Option LoopExit :=
  let st := { st with eventIdx := st.eventIdx + 1 }
  if env.stopSeen st.eventIdx then (st, [], some .stopBreak)
  else
    let st := captureSession e st
    match e.kind with
    | .assistant blocks =>
      match processBlocks env blocks st with
      | (st1, out, some m) => (st1, out, some (.raised m))
      | (st1, out, none) =>
        if st1.askUserTriggered then (st1, out, some .askBreak)
        else (st1, out, none)
    | .result usage =>
      ({ st with
          queryCompleted := true
          sess :=
            match usage with
            | some u => { st.sess with lastUsage := some u }
            | none => st.sess }, [], none)
    | .other => (st, [], none)

/-- The backend-A event loop: iterate `claudeStep` until an exit or the
end of the stream. -/
def claudeLoop (env : RunEnv) :
    List ClaudeEvent → LoopSt → LoopSt × List StatusEvent × LoopExit
  | [], st => (st, [], .finished)
  | e :: es, st =>
    match claudeStep env e st with
    | (st1, out, some ex) => (st1, out, ex)
    | (st1, out, none) =>
      let r := claudeLoop env es st1
      (r.1, out ++ r.2.1, r.2.2)

/-- Indices emitted by the synthetic progressive tail loop
(`for (let end = start; end < len; end += step)`), over a fuel argument
so it reduces in the kernel; with a positive step, `len` iterations
always suffice. -/
def tailIdxF : Nat → Nat → Nat → Nat → List Nat
  | 0, _, _, _ => []
  | fuel + 1, step, len, e =>
    if 0 < step ∧ e < len then e :: tailIdxF fuel step len (e + step)
    else []

/-- The tail-index loop at full fuel. -/
def tailIdx (step len e : Nat) : List Nat := tailIdxF len step len e

/-- `emitProgressiveTail`: when a large segment was delivered
snapshot-style, reveal it in fixed-size steps before the final
`segment_end`. -/
def progressiveTail (env : RunEnv) (full : String)
    (segId lastEmitted : Nat) : List StatusEvent :=
  if full.length < env.stream.fallbackMinChars ∨ env.stream.stepChars = 0 then
    []
  else
    let start := max (lastEmitted + env.stream.stepChars) env.stream.stepChars
    (tailIdx env.stream.stepChars full.length start).map
      (fun e => .text (strTake full e) segId)

/-- Result of one turn: the emitted status events, the session state
after the call, and either the returned final text or the propagated
error message. -/
structure RunResult where
  out : List StatusEvent
  sess : Session
  res : Except String String
deriving Repr

/-- The session mutations right before the backend-A try block. -/
def claudeStart (s : Session) (now : Nat) : Session :=
  { s with
      abortCtrl := true
      isQueryRunning := true
      stopRequested := false
      queryStarted := some now
      currentTool := none }

/-- The session mutations right before the backend-B try block
(`this.abortController = null`). -/
def codexStart (s : Session) (now : Nat) : Session :=
  { s with
      abortCtrl := false
      isQueryRunning := true
      stopRequested := false
      queryStarted := some now
      currentTool := none }

/-- The `finally` block of both runners. -/
def finallyFields (s : Session) : Session :=
  { s with
      isQueryRunning := false
      abortCtrl := false
      queryStarted := none
      currentTool := none }

/-- Code after the backend-A try/catch/finally: refresh activity, clear
the error fields, then either return the ask-user sentinel or flush the
open segment (progressive tail + `segment_end`) and emit `done`. -/
def claudeFinish (env : RunEnv) (now : Nat) (st : LoopSt)
    (out : List StatusEvent) : RunResult :=
  let sess := { finallyFields st.sess with
    lastActivity := some now, lastError := none, lastErrorTime := none }
  if st.askUserTriggered then
    { out := out ++ [.done], sess := sess,
      res := .ok "[Waiting for user selection]" }
  else if st.segText ≠ "" then
    { out := out ++ progressiveTail env st.segText st.segId st.lastEmittedLen
        ++ [.segment_end st.segText st.segId, .done]
      sess := sess
      res := .ok (joinOr st.responseParts "No response from Claude.") }
  else
    { out := out ++ [.done], sess := sess,
      res := .ok (joinOr st.responseParts "No response from Claude.") }

/-- `sendMessageStreaming` (backend A).  The date preamble only affects
the prompt string handed to the backend; the event sequence the backend
answers with is the `events` argument. -/
def claudeRun (env : RunEnv) (s : Session) (message : String) (now : Nat)
    (events : List ClaudeEvent) : RunResult :=
  let isNew := s.sessionId = none
  let _messageToSend :=
    if isNew then "[Current date/time: " ++ env.fmtDate ++ "]\n\n" ++ message
    else message
  if s.stopRequested then
    { out := [], sess := { s with stopRequested := false },
      res := .error "Query cancelled" }
  else
    let st0 := initLoopSt (claudeStart s now)
    match claudeLoop env events st0 with
    | (st1, out1, .raised m) =>
      if cancelShaped m ∧
          (st1.queryCompleted ∨ st1.askUserTriggered ∨ env.stopAtCatch) then
        claudeFinish env now st1 out1
      else
        { out := out1
          sess := { finallyFields st1.sess with
            lastError := some (errTrunc m), lastErrorTime := some now }
          res := .error m }
    | (st1, out1, _) => claudeFinish env now st1 out1

/-- One iteration of the backend-B event loop of
`sendMessageStreamingCodex`. -/
def codexStep (env : RunEnv) (e : CodexEvent) (st : LoopSt) :
    LoopSt × List StatusEvent × Option LoopExit :=
  let st := { st with eventIdx := st.eventIdx + 1 }
  if env.stopSeen st.eventIdx then (st, [], some .stopBreak)
  else
    match e with
    | .error m =>
      (st, [],
        some (.raised (if m = "" then "Unknown Codex stream error" else m)))
    | .turn_failed m =>
      (st, [], some (.raised (if m = "" then "Codex turn failed" else m)))
    | .item_completed none => (st, [], none)
    | .item_completed (some (.reasoning t)) =>
      (st, if t ≠ "" then [StatusEvent.thinking t] else [], none)
    | .item_completed (some (.command_execution cmd)) =>
      if (checkCommandSafety env.sec cmd).1 = false then
        let reason := (checkCommandSafety env.sec cmd).2
        (st, [.tool ("BLOCKED: " ++ reason)],
          some (.raised ("Unsafe command blocked: " ++ reason)))
      else
        let p := closeSegment st
        let toolDisplay := env.fmtTool "Bash" cmd ""
        let st1 := { p.1 with sess := { p.1.sess with
          currentTool := some toolDisplay, lastTool := some toolDisplay } }
        (st1, p.2 ++ [StatusEvent.tool toolDisplay], none)
    | .item_completed (some (.agent_message t)) =>
      if t = "" then (st, [], none)
      else
        let p := emitTextBlock env st t
        (p.1, p.2, none)
    | .item_completed (some .other) => (st, [], none)
    | .turn_completed =>
      match env.threadId with
      | some tid =>
        ({ st with
            sess := { st.sess with sessionId := some tid }
            savedLog := st.savedLog ++ [tid] }, [], some .completedBreak)
      | none => (st, [], some .completedBreak)
    | .other => (st, [], none)

/-- The backend-B event loop: iterate `codexStep` until an exit or the
end of the stream. -/
def codexLoop (env : RunEnv) :
    List CodexEvent → LoopSt → LoopSt × List StatusEvent × LoopExit
  | [], st => (st, [], .finished)
  | e :: es, st =>
    match codexStep env e st with
    | (st1, out, some ex) => (st1, out, ex)
    | (st1, out, none) =>
      let r := codexLoop env es st1
      (r.1, out ++ r.2.1, r.2.2)

/-- Code after the backend-B try/catch/finally. -/
def codexFinish (env : RunEnv) (now : Nat) (st : LoopSt)
    (out : List StatusEvent) : RunResult :=
  let sess := { finallyFields st.sess with
    lastActivity := some now, lastError := none, lastErrorTime := none }
  if st.segText ≠ "" then
    { out := out ++ progressiveTail env st.segText st.segId st.lastEmittedLen
        ++ [.segment_end st.segText st.segId, .done]
      sess := sess
      res := .ok (joinOr st.responseParts "No response from Codex.") }
  else
    { out := out ++ [.done], sess := sess,
      res := .ok (joinOr st.responseParts "No response from Codex.") }

/-- `sendMessageStreamingCodex` (backend B).  The resume-versus-start
thread negotiation (including the soft resume-failure fallback) happens
at transport level before any event arrives and has no state effect
beyond the prompt; the cooperative stop flag is the only cancellation
channel. -/
def codexRun (env : RunEnv) (s : Session) (message : String) (now : Nat)
    (events : List CodexEvent) : RunResult :=
  let isNew := s.sessionId = none
  let _messageToSend :=
    if isNew then "[Current date/time: " ++ env.fmtDate ++ "]\n\n" ++ message
    else message
  if s.stopRequested then
    { out := [], sess := { s with stopRequested := false },
      res := .error "Query cancelled" }
  else
    let st0 := initLoopSt (codexStart s now)
    match codexLoop env events st0 with
    | (st1, out1, .raised m) =>
      if cancelShaped m ∧ env.stopAtCatch then
        codexFinish env now st1 out1
      else
        { out := out1
          sess := { finallyFields st1.sess with
            lastError := some (errTrunc m), lastErrorTime := some now }
          res := .error m }
    | (st1, out1, _) => codexFinish env now st1 out1

/-! ### Concrete instances used by witnesses and counterexamples -/

/-- A concrete security configuration: the default blocked patterns, the
default temp prefixes (with an identity resolver, i.e. already-absolute
canonical paths), and no extra allowed paths. -/
def secWit : SecCfg :=
  { blockedPatterns := BLOCKED_PATTERNS
    allowedPaths := []
    tempPaths := ["/tmp/", "/private/tmp/", "/var/folders/"]
    resolvePath := id
    resolveAbs := id }

/-- A concrete run environment for evaluating the turn runners. -/
def envWit : RunEnv :=
  { sec := secWit
    stream := defaultStream
    fmtTool := fun n _ _ => n
    fmtDate := "Monday, January 5, 2026, 09:00 AM CET"
    clock := fun _ => 0
    askPoll := fun _ => false
    hasCtx := true
    stopSeen := fun _ => false
    stopAtCatch := false
    threadId := some "thread-1" }

/-- A fresh idle session at the default configuration. -/
def sessWit : Session := initSession defaultEnv .claude .high

/-! ### Loop invariants -/

theorem closeSegment_noDone (st : LoopSt) :
    StatusEvent.done ∉ (closeSegment st).2 := by
  unfold closeSegment
  split <;> simp

theorem emitTextBlock_noDone (env : RunEnv) (st : LoopSt) (t : String) :
    StatusEvent.done ∉ (emitTextBlock env st t).2 := by
  unfold emitTextBlock
  dsimp only
  split
  · simp
  · split <;> simp

theorem processToolUse_noDone (env : RunEnv) (st : LoopSt)
    (n c f : String) :
    StatusEvent.done ∉ (processToolUse env st n c f).2.1 := by
  unfold processToolUse
  split
  · simp
  · split
    · simp
    · simp only [List.mem_append]
      intro h
      rcases h with h | h
      · exact closeSegment_noDone st h
      · revert h
        split <;> simp

theorem processBlocks_noDone (env : RunEnv) (bs : List ContentBlock)
    (st : LoopSt) :
    StatusEvent.done ∉ (processBlocks env bs st).2.1 := by
  induction bs generalizing st with
  | nil => simp [processBlocks]
  | cons b bs ih =>
    cases b with
    | thinking t =>
      simp only [processBlocks, List.mem_append]
      intro h
      rcases h with h | h
      · revert h; split <;> simp
      · exact ih st h
    | tool_use n c f =>
      simp only [processBlocks]
      match hp : processToolUse env st n c f with
      | (st1, ems, some err) =>
        intro h
        have := processToolUse_noDone env st n c f
        rw [hp] at this
        exact this h
      | (st1, ems, none) =>
        simp only [List.mem_append]
        intro h
        rcases h with h | h
        · have := processToolUse_noDone env st n c f
          rw [hp] at this
          exact this h
        · exact ih st1 h
    | text t =>
      simp only [processBlocks, List.mem_append]
      intro h
      rcases h with h | h
      · exact emitTextBlock_noDone env st t h
      · exact ih _ h

theorem claudeStep_noDone (env : RunEnv) (e : ClaudeEvent) (st : LoopSt) :
    StatusEvent.done ∉ (claudeStep env e st).2.1 := by
  unfold claudeStep
  split
  · rename_i x blocks hkind
    dsimp only
    split
    · simp
    · split
      · rename_i heq
        intro h
        have h2 := processBlocks_noDone env blocks
          (captureSession e { st with eventIdx := st.eventIdx + 1 })
        rw [heq] at h2
        exact h2 h
      · rename_i heq
        split
        all_goals
          intro h
          have h2 := processBlocks_noDone env blocks
            (captureSession e { st with eventIdx := st.eventIdx + 1 })
          rw [heq] at h2
          exact h2 h
  · dsimp only
    split <;> simp
  · dsimp only
    split <;> simp

theorem codexStep_noDone (env : RunEnv) (e : CodexEvent) (st : LoopSt) :
    StatusEvent.done ∉ (codexStep env e st).2.1 := by
  unfold codexStep
  split
  · dsimp only
    split <;> simp
  · dsimp only
    split <;> simp
  · dsimp only
    split <;> simp
  · dsimp only
    split
    · simp
    · split <;> simp
  · rename_i cmd
    dsimp only
    split
    · simp
    · split
      · simp
      · intro h
        simp only [List.mem_append] at h
        rcases h with h | h
        · exact closeSegment_noDone _ h
        · simp at h
  · rename_i t
    dsimp only
    split
    · simp
    · split
      · simp
      · exact emitTextBlock_noDone env _ t
  · dsimp only
    split <;> simp
  · dsimp only
    split
    · simp
    · split <;> simp
  · dsimp only
    split <;> simp

theorem claudeLoop_noDone (env : RunEnv) (es : List ClaudeEvent)
    (st : LoopSt) :
    StatusEvent.done ∉ (claudeLoop env es st).2.1 := by
  induction es generalizing st with
  | nil => simp [claudeLoop]
  | cons e es ih =>
    simp only [claudeLoop]
    split
    · rename_i st1 out ex heq
      intro h
      have h2 := claudeStep_noDone env e st
      rw [heq] at h2
      exact h2 h
    · rename_i st1 out heq
      intro h
      simp only [List.mem_append] at h
      rcases h with h | h
      · have h2 := claudeStep_noDone env e st
        rw [heq] at h2
        exact h2 h
      · exact ih st1 h

theorem codexLoop_noDone (env : RunEnv) (es : List CodexEvent)
    (st : LoopSt) :
    StatusEvent.done ∉ (codexLoop env es st).2.1 := by
  induction es generalizing st with
  | nil => simp [codexLoop]
  | cons e es ih =>
    simp only [codexLoop]
    split
    · rename_i st1 out ex heq
      intro h
      have h2 := codexStep_noDone env e st
      rw [heq] at h2
      exact h2 h
    · rename_i st1 out heq
      intro h
      simp only [List.mem_append] at h
      rcases h with h | h
      · have h2 := codexStep_noDone env e st
        rw [heq] at h2
        exact h2 h
      · exact ih st1 h

theorem claudeStep_no_finished (env : RunEnv) (e : ClaudeEvent)
    (st : LoopSt) : (claudeStep env e st).2.2 ≠ some .finished := by
  unfold claudeStep
  split
  · dsimp only
    split
    · simp
    · split
      · simp
      · split <;> simp
  · dsimp only
    split <;> simp
  · dsimp only
    split <;> simp

theorem codexStep_no_finished (env : RunEnv) (e : CodexEvent)
    (st : LoopSt) : (codexStep env e st).2.2 ≠ some .finished := by
  unfold codexStep
  split
  · dsimp only
    split <;> simp
  · dsimp only
    split <;> simp
  · dsimp only
    split <;> simp
  · dsimp only
    split <;> simp
  · dsimp only
    split
    · simp
    · split <;> simp
  · dsimp only
    split
    · simp
    · split <;> simp
  · dsimp only
    split <;> simp
  · dsimp only
    split
    · simp
    · split <;> simp
  · dsimp only
    split <;> simp

theorem claudeLoop_append (env : RunEnv) (a b : List ClaudeEvent) :
    ∀ (st st1 : LoopSt) (o1 : List StatusEvent),
      claudeLoop env a st = (st1, o1, .finished) →
      claudeLoop env (a ++ b) st =
        ((claudeLoop env b st1).1, o1 ++ (claudeLoop env b st1).2.1,
          (claudeLoop env b st1).2.2) := by
  induction a with
  | nil =>
    intro st st1 o1 h
    simp only [claudeLoop] at h
    cases h
    simp [List.nil_append]
  | cons e a ih =>
    intro st st1 o1 h
    simp only [List.cons_append, claudeLoop] at h ⊢
    rcases hseq : claudeStep env e st with ⟨st2, out2, ex⟩
    rw [hseq] at h
    cases ex with
    | some ex0 =>
      dsimp only at h
      have hf := claudeStep_no_finished env e st
      rw [hseq] at hf
      simp only [Prod.mk.injEq] at h
      obtain ⟨h1, h2, h3⟩ := h
      exact absurd (by rw [h3]) hf
    | none =>
      dsimp only at h ⊢
      rcases hr : claudeLoop env a st2 with ⟨st3, o3, ex3⟩
      rw [hr] at h
      dsimp only at h
      simp only [Prod.mk.injEq] at h
      obtain ⟨h1, h2, h3⟩ := h
      subst h1 h2 h3
      simp only [List.append_eq]
      rw [ih st2 st3 o3 hr]
      simp [List.append_assoc]

theorem codexLoop_append (env : RunEnv) (a b : List CodexEvent) :
    ∀ (st st1 : LoopSt) (o1 : List StatusEvent),
      codexLoop env a st = (st1, o1, .finished) →
      codexLoop env (a ++ b) st =
        ((codexLoop env b st1).1, o1 ++ (codexLoop env b st1).2.1,
          (codexLoop env b st1).2.2) := by
  induction a with
  | nil =>
    intro st st1 o1 h
    simp only [codexLoop] at h
    cases h
    simp [List.nil_append]
  | cons e a ih =>
    intro st st1 o1 h
    simp only [List.cons_append, codexLoop] at h ⊢
    rcases hseq : codexStep env e st with ⟨st2, out2, ex⟩
    rw [hseq] at h
    cases ex with
    | some ex0 =>
      dsimp only at h
      have hf := codexStep_no_finished env e st
      rw [hseq] at hf
      simp only [Prod.mk.injEq] at h
      obtain ⟨h1, h2, h3⟩ := h
      exact absurd (by rw [h3]) hf
    | none =>
      dsimp only at h ⊢
      rcases hr : codexLoop env a st2 with ⟨st3, o3, ex3⟩
      rw [hr] at h
      dsimp only at h
      simp only [Prod.mk.injEq] at h
      obtain ⟨h1, h2, h3⟩ := h
      subst h1 h2 h3
      simp only [List.append_eq]
      rw [ih st2 st3 o3 hr]
      simp [List.append_assoc]

theorem progressiveTail_noDone (env : RunEnv) (full : String)
    (segId lastEmitted : Nat) :
    StatusEvent.done ∉ progressiveTail env full segId lastEmitted := by
  unfold progressiveTail
  split
  · simp
  · simp only [List.mem_map]
    rintro ⟨x, _, hx⟩
    exact StatusEvent.noConfusion hx

theorem progressiveTail_noSegEnd (env : RunEnv) (full : String)
    (segId lastEmitted : Nat) (c : String) (i : Nat) :
    StatusEvent.segment_end c i ∉ progressiveTail env full segId lastEmitted := by
  unfold progressiveTail
  split
  · simp
  · simp only [List.mem_map]
    rintro ⟨x, _, hx⟩
    exact StatusEvent.noConfusion hx

theorem str_empty_append (s : String) : "" ++ s = s := by
  cases s
  rfl

theorem closeSegment_flags (st : LoopSt) :
    ((closeSegment st).1).queryCompleted = st.queryCompleted ∧
    ((closeSegment st).1).askUserTriggered = st.askUserTriggered := by
  unfold closeSegment
  split <;> simp

theorem emitTextBlock_flags (env : RunEnv) (st : LoopSt) (t : String) :
    ((emitTextBlock env st t).1).queryCompleted = st.queryCompleted ∧
    ((emitTextBlock env st t).1).askUserTriggered = st.askUserTriggered := by
  unfold emitTextBlock
  dsimp only
  split
  · simp
  · split <;> simp

theorem codexStep_flags (env : RunEnv) (e : CodexEvent) (st : LoopSt) :
    ((codexStep env e st).1).queryCompleted = st.queryCompleted ∧
    ((codexStep env e st).1).askUserTriggered = st.askUserTriggered := by
  unfold codexStep
  split
  · dsimp only
    split <;> simp
  · dsimp only
    split <;> simp
  · dsimp only
    split <;> simp
  · dsimp only
    split <;> simp
  · rename_i cmd
    dsimp only
    split
    · simp
    · split
      · simp
      · have h1 := closeSegment_flags { st with eventIdx := st.eventIdx + 1 }
        exact ⟨by simpa using h1.1, by simpa using h1.2⟩
  · rename_i t
    dsimp only
    split
    · simp
    · split
      · simp
      · have h1 := emitTextBlock_flags env
          { st with eventIdx := st.eventIdx + 1 } t
        exact ⟨by simpa using h1.1, by simpa using h1.2⟩
  · dsimp only
    split <;> simp
  · dsimp only
    split
    · simp
    · split <;> simp
  · dsimp only
    split <;> simp

theorem codexLoop_flags (env : RunEnv) (es : List CodexEvent) (st : LoopSt) :
    (((codexLoop env es st).1).queryCompleted = st.queryCompleted) ∧
    (((codexLoop env es st).1).askUserTriggered = st.askUserTriggered) := by
  induction es generalizing st with
  | nil => simp [codexLoop]
  | cons e es ih =>
    simp only [codexLoop]
    rcases hseq : codexStep env e st with ⟨st2, out2, ex⟩
    have hs := codexStep_flags env e st
    rw [hseq] at hs
    cases ex with
    | some ex0 => exact hs
    | none =>
      dsimp only
      have hl := ih st2
      exact ⟨hl.1.trans hs.1, hl.2.trans hs.2⟩

theorem claudeFinish_shape (env : RunEnv) (now : Nat) (st : LoopSt)
    (out : List StatusEvent) :
    ∃ mid, (claudeFinish env now st out).out = out ++ mid ++ [.done] ∧
      StatusEvent.done ∉ mid := by
  unfold claudeFinish
  split
  · exact ⟨[], by simp⟩
  · split
    · refine ⟨progressiveTail env st.segText st.segId st.lastEmittedLen ++
        [.segment_end st.segText st.segId], ?_, ?_⟩
      · simp
      · intro h
        rcases List.mem_append.mp h with h | h
        · exact progressiveTail_noDone env st.segText st.segId
            st.lastEmittedLen h
        · simp at h
    · exact ⟨[], by simp⟩

theorem codexFinish_shape (env : RunEnv) (now : Nat) (st : LoopSt)
    (out : List StatusEvent) :
    ∃ mid, (codexFinish env now st out).out = out ++ mid ++ [.done] ∧
      StatusEvent.done ∉ mid := by
  unfold codexFinish
  split
  · refine ⟨progressiveTail env st.segText st.segId st.lastEmittedLen ++
      [.segment_end st.segText st.segId], ?_, ?_⟩
    · simp
    · intro h
      rcases List.mem_append.mp h with h | h
      · exact progressiveTail_noDone env st.segText st.segId
          st.lastEmittedLen h
      · simp at h
  · exact ⟨[], by simp⟩

theorem claudeFinish_res (env : RunEnv) (now : Nat) (st : LoopSt)
    (out : List StatusEvent) :
    ∃ t, (claudeFinish env now st out).res = .ok t := by
  unfold claudeFinish
  split
  · exact ⟨_, rfl⟩
  · split
    · exact ⟨_, rfl⟩
    · exact ⟨_, rfl⟩

theorem codexFinish_res (env : RunEnv) (now : Nat) (st : LoopSt)
    (out : List StatusEvent) :
    ∃ t, (codexFinish env now st out).res = .ok t := by
  unfold codexFinish
  split
  · exact ⟨_, rfl⟩
  · exact ⟨_, rfl⟩

theorem claudeFinish_sess (env : RunEnv) (now : Nat) (st : LoopSt)
    (out : List StatusEvent) :
    (claudeFinish env now st out).sess.lastError = none ∧
    (claudeFinish env now st out).sess.lastErrorTime = none := by
  unfold claudeFinish
  split
  · simp
  · split <;> simp

theorem codexFinish_sess (env : RunEnv) (now : Nat) (st : LoopSt)
    (out : List StatusEvent) :
    (codexFinish env now st out).sess.lastError = none ∧
    (codexFinish env now st out).sess.lastErrorTime = none := by
  unfold codexFinish
  split <;> simp

theorem tempHit_isPathAllowed (sec : SecCfg) (p : String)
    (h : (sec.tempPaths.any
      (fun t => strStartsWith (sec.resolvePath p) t)) = true) :
    isPathAllowed sec p = true := by
  unfold isPathAllowed
  dsimp only
  rw [h]
  rfl

theorem effortName_inj (a b : CodexEffort) : effortName a = effortName b ↔ a = b := by
  cases a <;> cases b <;> decide

theorem claudeEffortName_inj (a b : ClaudeEffort) :
    claudeEffortName a = claudeEffortName b ↔ a = b := by
  cases a <;> cases b <;> decide

theorem finishSetModel_spec (s s1 : Session)
    (hrest : s1.sessionId = s.sessionId ∧ s1.lastActivity = s.lastActivity ∧
      s1.queryStarted = s.queryStarted ∧ s1.currentTool = s.currentTool ∧
      s1.lastTool = s.lastTool ∧ s1.lastError = s.lastError ∧
      s1.lastErrorTime = s.lastErrorTime ∧ s1.lastUsage = s.lastUsage ∧
      s1.lastMessage = s.lastMessage ∧
      s1.conversationTitle = s.conversationTitle ∧
      s1.abortCtrl = s.abortCtrl ∧ s1.isQueryRunning = s.isQueryRunning ∧
      s1.stopRequested = s.stopRequested ∧ s1.isProcessing = s.isProcessing ∧
      s1.wasInterruptedByNewMessage = s.wasInterruptedByNewMessage)
    (hce : s1.claudeEffort = s.claudeEffort)
    (hcl : s1.assistantMode = .codex → s1.claudeModel = s.claudeModel)
    (hcm : s1.assistantMode = .claude → s1.codexModel = s.codexModel)
    (hcx : s1.assistantMode = .claude → s1.codexEffort = s.codexEffort) :
    ((activeCfg (finishSetModel s.assistantMode (activeModel s) s.codexEffort s1).1 ≠ activeCfg s) →
      ((finishSetModel s.assistantMode (activeModel s) s.codexEffort s1).2.1 = true ∧
       (finishSetModel s.assistantMode (activeModel s) s.codexEffort s1).1.sessionId = none ∧
       (finishSetModel s.assistantMode (activeModel s) s.codexEffort s1).1.lastActivity = none ∧
       (finishSetModel s.assistantMode (activeModel s) s.codexEffort s1).1.queryStarted = none ∧
       (finishSetModel s.assistantMode (activeModel s) s.codexEffort s1).1.currentTool = none ∧
       (finishSetModel s.assistantMode (activeModel s) s.codexEffort s1).1.lastTool = none ∧
       (finishSetModel s.assistantMode (activeModel s) s.codexEffort s1).1.lastUsage = none ∧
       (finishSetModel s.assistantMode (activeModel s) s.codexEffort s1).1.lastError = none ∧
       (finishSetModel s.assistantMode (activeModel s) s.codexEffort s1).1.lastErrorTime = none)) ∧
    ((activeCfg (finishSetModel s.assistantMode (activeModel s) s.codexEffort s1).1 = activeCfg s) →
      (finishSetModel s.assistantMode (activeModel s) s.codexEffort s1).1 = s) ∧
    ((activeCfg (finishSetModel s.assistantMode (activeModel s) s.codexEffort s1).1 = activeCfg s) →
      (finishSetModel s.assistantMode (activeModel s) s.codexEffort s1).2.2 =
        "Model unchanged: " ++ modelDisplay s ++ " (" ++
          modeUpper s.assistantMode ++ ")") := by
  by_cases hch : (s.assistantMode ≠ s1.assistantMode ∨
      activeModel s ≠ activeModel s1 ∨ s.codexEffort ≠ s1.codexEffort)
  · have hne : activeCfg s1 ≠ activeCfg s := by
      intro he
      have hm : s1.assistantMode = s.assistantMode := by
        have := congrArg Prod.fst he
        simpa [activeCfg] using this
      have hmod : activeModel s1 = activeModel s := by
        have := congrArg (fun x => x.2.1) he
        simpa [activeCfg] using this
      rcases hch with h | h | h
      · exact h hm.symm
      · exact h hmod.symm
      · cases hmode : s1.assistantMode with
        | claude => exact h (hcx hmode).symm
        | codex =>
          have h3 := congrArg (fun x => x.2.2) he
          simp only [activeCfg] at h3
          have hsm : s.assistantMode = .codex := hm ▸ hmode
          rw [hmode] at h3
          rw [hsm] at h3
          dsimp only at h3
          exact h ((effortName_inj _ _).mp h3).symm
    unfold finishSetModel
    rw [if_pos hch]
    refine ⟨fun _ => ⟨rfl, rfl, rfl, rfl, rfl, rfl, rfl, rfl, rfl⟩, ?_, ?_⟩
    · intro hEq
      exact absurd hEq hne
    · intro hEq
      exact absurd hEq hne
  · push_neg at hch
    obtain ⟨ha, hb, hc⟩ := hch
    have hs1 : s1 = s := by
      obtain ⟨h1, h2, h3, h4, h5, h6, h7, h8, h9, h10, h11, h12, h13, h14, h15⟩ := hrest
      have hclm : s1.claudeModel = s.claudeModel := by
        cases hmode : s1.assistantMode with
        | codex => exact hcl hmode
        | claude =>
          have := hb
          unfold activeModel at this
          rw [hmode, ha, hmode] at this
          exact this.symm
      have hcxm : s1.codexModel = s.codexModel := by
        cases hmode : s1.assistantMode with
        | claude => exact hcm hmode
        | codex =>
          have := hb
          unfold activeModel at this
          rw [hmode, ha, hmode] at this
          exact this.symm
      cases s
      cases s1
      simp_all
    unfold finishSetModel
    rw [if_neg (by push_neg; exact ⟨ha, hb, hc⟩)]
    subst hs1
    exact ⟨fun hne => absurd rfl hne, fun _ => rfl, fun _ => rfl⟩

/-! ### Claims -/

/-- C10 (corrected): every path whose resolved form begins with one of
the temp prefixes passes `isPathAllowed`, regardless of the configured
allowed-paths list (the whole `SecCfg` is universally quantified) and of
the intended operation (`isPathAllowed` takes no operation); and
`checkCommandSafety` accepts `rm` commands all of whose targets resolve
into the temp prefixes, provided the command contains no blocked pattern
— the proviso the counterexample forces. -/
theorem c10_temp_exception :
    (∀ (sec : SecCfg) (p : String),
      (sec.tempPaths.any
        (fun t => strStartsWith (sec.resolvePath p) t)) = true →
      isPathAllowed sec p = true) ∧
    (∀ (sec : SecCfg) (cmd : String),
      findBlocked (strLower cmd) sec.blockedPatterns = none →
      (∀ a ∈ rmTargets cmd,
        (sec.tempPaths.any
          (fun t => strStartsWith (sec.resolvePath a) t)) = true) →
      checkCommandSafety sec cmd = (true, "")) := by
  constructor
  · exact tempHit_isPathAllowed
  · intro sec cmd hfb hall
    unfold checkCommandSafety
    rw [hfb]
    dsimp only
    split
    · rw [rmViolation_none]
      intro a ha
      exact tempHit_isPathAllowed sec a (hall a ha)
    · rfl

/-- C10 counterexample: `rm -rf /tmp/x` targets a temp directory, yet
`checkCommandSafety` rejects it, because the command contains the blocked
pattern `rm -rf /`.  This refutes the claim that `checkCommandSafety`
accepts every `rm` command whose targets lie in the temp directories. -/
theorem c10_counterexample :
    checkCommandSafety secWit "rm -rf /tmp/x" =
      (false, "Blocked pattern: rm -rf /") ∧
    rmTargets "rm -rf /tmp/x" = ["/tmp/x"] ∧
    (secWit.tempPaths.any
      (fun t => strStartsWith (secWit.resolvePath "/tmp/x") t)) = true :=
  ⟨rfl, rfl, rfl⟩

/-- C10 witness: instantiating the theorem at a concrete configuration
and at `rm /tmp/junk.txt`, a deletion inside `/tmp/` that the Safety
Policy accepts. -/
theorem c10_witness :
    isPathAllowed secWit "/tmp/junk.txt" = true ∧
    checkCommandSafety secWit "rm /tmp/junk.txt" = (true, "") := by
  constructor
  · exact c10_temp_exception.1 secWit "/tmp/junk.txt" (by decide)
  · exact c10_temp_exception.2 secWit "rm /tmp/junk.txt" (by decide)
      (by decide)

/-- C6 (corrected): a non-empty selection that parses as no codex preset,
no claude alias and no bare keyword is treated as a literal codex model
id — but only when its lowercased form does not start with `claude`;
otherwise `setModel` fails with the claude-models usage message. -/
theorem c6_literal_codex_fallback (env : EnvCfg) (s : Session)
    (selRaw : String)
    (hne : strTrim selRaw ≠ "")
    (hp : parseCodexPreset env (strTrim selRaw) = none)
    (ha : parseClaudeAlias (strTrim selRaw) = none)
    (hk1 : strLower (strTrim selRaw) ≠ "claude")
    (hk2 : strLower (strTrim selRaw) ≠ "codex")
    (hsw : strStartsWith (strLower (strTrim selRaw)) "claude" = false) :
    (setModel env s selRaw).2.1 = true ∧
    (setModel env s selRaw).1.assistantMode = .codex ∧
    (setModel env s selRaw).1.codexModel = strTrim selRaw := by
  unfold setModel
  dsimp only
  rw [if_neg hne, hp, ha, if_neg hk1, if_neg hk2,
    if_neg (by rw [hsw]; exact Bool.false_ne_true)]
  dsimp only
  unfold finishSetModel
  split <;> exact ⟨rfl, rfl, rfl⟩

/-- C6 counterexample: `claude 9` is non-empty, parses as no codex
preset, no claude alias and no bare backend keyword, yet `setModel`
fails with the claude-models message and leaves the session unchanged
instead of falling back to a literal codex model id. -/
theorem c6_counterexample :
    strTrim "claude 9" = "claude 9" ∧
    parseCodexPreset defaultEnv "claude 9" = none ∧
    parseClaudeAlias "claude 9" = none ∧
    strLower "claude 9" ≠ "claude" ∧
    strLower "claude 9" ≠ "codex" ∧
    (setModel defaultEnv sessWit "claude 9").2.1 = false ∧
    (setModel defaultEnv sessWit "claude 9").1 = sessWit ∧
    (setModel defaultEnv sessWit "claude 9").2.2 =
      "Claude models: \x27opus 4.6\x27 or \x27sonnet 4.5\x27" := by
  refine ⟨rfl, rfl, rfl, ?_, ?_, rfl, rfl, rfl⟩ <;> decide

/-- C6 witness: the amended fallback at the literal selection
`gpt-4o`. -/
theorem c6_witness :
    (setModel defaultEnv sessWit "gpt-4o").2.1 = true ∧
    (setModel defaultEnv sessWit "gpt-4o").1.assistantMode = .codex ∧
    (setModel defaultEnv sessWit "gpt-4o").1.codexModel =
      strTrim "gpt-4o" :=
  c6_literal_codex_fallback defaultEnv sessWit "gpt-4o" (by decide)
    (by decide) (by decide) (by decide) (by decide) (by decide)

/-- C3 (confirmed): `setModel` clears `backendSessionId` and resets the
turn/observability fields exactly when the call changes the active
`(assistantKind, modelId, reasoningEffort)`; when the selection parses to
the already-active configuration it returns success with the
"Model unchanged" message and leaves every session field unmodified. -/
theorem c3_setModel_reset_iff (env : EnvCfg) (s : Session) (sel : String) :
    ((activeCfg (setModel env s sel).1 ≠ activeCfg s) →
      ((setModel env s sel).2.1 = true ∧
       (setModel env s sel).1.sessionId = none ∧
       (setModel env s sel).1.lastActivity = none ∧
       (setModel env s sel).1.queryStarted = none ∧
       (setModel env s sel).1.currentTool = none ∧
       (setModel env s sel).1.lastTool = none ∧
       (setModel env s sel).1.lastUsage = none ∧
       (setModel env s sel).1.lastError = none ∧
       (setModel env s sel).1.lastErrorTime = none)) ∧
    ((activeCfg (setModel env s sel).1 = activeCfg s) →
      (setModel env s sel).1 = s) ∧
    ((setModel env s sel).2.1 = true →
      activeCfg (setModel env s sel).1 = activeCfg s →
      (setModel env s sel).2.2 =
        "Model unchanged: " ++ modelDisplay s ++ " (" ++
          modeUpper s.assistantMode ++ ")") := by
  unfold setModel
  dsimp only
  by_cases hne : strTrim sel = ""
  · rw [if_pos hne]
    exact ⟨fun hd => absurd rfl hd, fun _ => rfl, fun hok => nomatch hok⟩
  · rw [if_neg hne]
    cases hp : parseCodexPreset env (strTrim sel) with
    | some me =>
      obtain ⟨m, e⟩ := me
      dsimp only
      have hspec := finishSetModel_spec s
        { s with assistantMode := .codex, codexModel := m, codexEffort := e }
        ⟨rfl, rfl, rfl, rfl, rfl, rfl, rfl, rfl, rfl, rfl, rfl, rfl, rfl, rfl,
          rfl⟩ rfl (fun _ => rfl) (fun h => nomatch h) (fun h => nomatch h)
      exact ⟨hspec.1, hspec.2.1, fun _ => hspec.2.2⟩
    | none =>
      cases ha : parseClaudeAlias (strTrim sel) with
      | some a =>
        dsimp only
        have hspec := finishSetModel_spec s
          { s with assistantMode := .claude, claudeModel := a }
          ⟨rfl, rfl, rfl, rfl, rfl, rfl, rfl, rfl, rfl, rfl, rfl, rfl, rfl,
            rfl, rfl⟩ rfl (fun h => nomatch h) (fun _ => rfl) (fun _ => rfl)
        exact ⟨hspec.1, hspec.2.1, fun _ => hspec.2.2⟩
      | none =>
        by_cases hk1 : strLower (strTrim sel) = "claude"
        · rw [if_pos hk1]
          have hspec := finishSetModel_spec s
            { s with assistantMode := .claude, claudeModel := env.claudeModel }
            ⟨rfl, rfl, rfl, rfl, rfl, rfl, rfl, rfl, rfl, rfl, rfl, rfl, rfl,
              rfl, rfl⟩ rfl (fun h => nomatch h) (fun _ => rfl) (fun _ => rfl)
          exact ⟨hspec.1, hspec.2.1, fun _ => hspec.2.2⟩
        · rw [if_neg hk1]
          by_cases hk2 : strLower (strTrim sel) = "codex"
          · rw [if_pos hk2]
            have hspec := finishSetModel_spec s
              { s with
                  assistantMode := .codex
                  codexModel := env.codexModel
                  codexEffort := env.codexEffort }
              ⟨rfl, rfl, rfl, rfl, rfl, rfl, rfl, rfl, rfl, rfl, rfl, rfl,
                rfl, rfl, rfl⟩ rfl (fun _ => rfl) (fun h => nomatch h)
              (fun h => nomatch h)
            exact ⟨hspec.1, hspec.2.1, fun _ => hspec.2.2⟩
          · rw [if_neg hk2]
            by_cases hsw : strStartsWith (strLower (strTrim sel)) "claude" = true
            · rw [if_pos hsw]
              exact ⟨fun hd => absurd rfl hd, fun _ => rfl,
                fun hok => nomatch hok⟩
            · rw [if_neg hsw]
              have hspec := finishSetModel_spec s
                { s with assistantMode := .codex, codexModel := strTrim sel }
                ⟨rfl, rfl, rfl, rfl, rfl, rfl, rfl, rfl, rfl, rfl, rfl, rfl,
                  rfl, rfl, rfl⟩ rfl (fun _ => rfl) (fun h => nomatch h)
                (fun h => nomatch h)
              exact ⟨hspec.1, hspec.2.1, fun _ => hspec.2.2⟩

/-- C3 witness: switching a fresh claude session to `codex 5.3 high`
changes the active configuration, so the backend session id is cleared
and the call succeeds. -/
theorem c3_witness :
    (setModel defaultEnv sessWit "codex 5.3 high").1.sessionId = none ∧
    (setModel defaultEnv sessWit "codex 5.3 high").2.1 = true := by
  have h := c3_setModel_reset_iff defaultEnv sessWit "codex 5.3 high"
  have hd : activeCfg (setModel defaultEnv sessWit "codex 5.3 high").1 ≠
      activeCfg sessWit := by decide
  obtain ⟨h1, -, -⟩ := h
  obtain ⟨hok, hsid, -⟩ := h1 hd
  exact ⟨hsid, hok⟩

/-- C7 (confirmed): `resumeSession` fails with the not-found message when
no entry matches, fails with the distinct wrong-scope message when the
entry's working directory is present and differs from the current scope
(both failures leave the session untouched), and on success restores
assistant kind, model, effort, backend session id and title, refreshes
`lastActivity`, and leaves the running flags as they were. -/
theorem c7_resume_scope :
    (∀ (wd : String) (now : Nat) (hist : List SavedSession) (s : Session)
        (sid : String),
      hist.find? (fun e => e.session_id = sid) = none →
      resumeSession wd now hist s sid = (s, false, "Sessione non trovata")) ∧
    (∀ (wd : String) (now : Nat) (hist : List SavedSession) (s : Session)
        (sid : String) (e : SavedSession),
      hist.find? (fun e => e.session_id = sid) = some e →
      e.working_dir.getD "" ≠ "" → e.working_dir.getD "" ≠ wd →
      resumeSession wd now hist s sid =
        (s, false,
          "Sessione per directory diversa: " ++ e.working_dir.getD "") ∧
      "Sessione per directory diversa: " ++ e.working_dir.getD "" ≠
        "Sessione non trovata") ∧
    (∀ (wd : String) (now : Nat) (hist : List SavedSession) (s : Session)
        (sid : String) (e : SavedSession) (am : AssistantMode) (m : String),
      hist.find? (fun e => e.session_id = sid) = some e →
      ¬(e.working_dir.getD "" ≠ "" ∧ e.working_dir.getD "" ≠ wd) →
      e.assistant = some am → e.model = some m →
      ((resumeSession wd now hist s sid).2.1 = true ∧
       (resumeSession wd now hist s sid).1.sessionId = some e.session_id ∧
       (resumeSession wd now hist s sid).1.conversationTitle =
         some e.title ∧
       (resumeSession wd now hist s sid).1.lastActivity = some now ∧
       (resumeSession wd now hist s sid).1.assistantMode = am ∧
       activeModel (resumeSession wd now hist s sid).1 = m ∧
       (∀ eff, am = .codex → e.codex_reasoning_effort = some eff →
         (resumeSession wd now hist s sid).1.codexEffort = eff) ∧
       (resumeSession wd now hist s sid).1.isQueryRunning =
         s.isQueryRunning ∧
       (resumeSession wd now hist s sid).1.isProcessing = s.isProcessing ∧
       (resumeSession wd now hist s sid).1.stopRequested =
         s.stopRequested)) := by
  refine ⟨?_, ?_, ?_⟩
  · intro wd now hist s sid hfind
    unfold resumeSession
    rw [hfind]
  · intro wd now hist s sid e hfind hd1 hd2
    constructor
    · unfold resumeSession
      rw [hfind]
      dsimp only
      rw [if_pos ⟨hd1, hd2⟩]
    · intro heq
      have hlen := congrArg String.length heq
      rw [String.length_append] at hlen
      have h32 : ("Sessione per directory diversa: " : String).length = 32 :=
        rfl
      have h20 : ("Sessione non trovata" : String).length = 20 := rfl
      omega
  · intro wd now hist s sid e am m hfind hscope ham hm
    unfold resumeSession
    rw [hfind]
    dsimp only
    rw [if_neg hscope, ham, hm]
    dsimp only
    cases am with
    | claude =>
      refine ⟨rfl, rfl, rfl, rfl, rfl, rfl, ?_, rfl, rfl, rfl⟩
      intro eff hcontra _
      exact nomatch hcontra
    | codex =>
      cases hce : e.codex_reasoning_effort with
      | none =>
        refine ⟨rfl, rfl, rfl, rfl, rfl, rfl, ?_, rfl, rfl, rfl⟩
        intro eff _ habs
        exact nomatch habs
      | some eff0 =>
        refine ⟨rfl, rfl, rfl, rfl, rfl, rfl, ?_, rfl, rfl, rfl⟩
        intro eff _ hsome
        cases hsome
        rfl

/-- C7 witness: a two-entry history exercising the wrong-scope failure
and a successful resume. -/
theorem c7_witness :
    (resumeSession "/work" 5
      [ { session_id := "A", saved_at := "t", working_dir := some "/other",
          title := "x", assistant := some .claude,
          model := some "claude-opus-4-6", codex_reasoning_effort := none } ]
      sessWit "A").2.1 = false ∧
    (resumeSession "/work" 5
      [ { session_id := "B", saved_at := "t", working_dir := some "/work",
          title := "y", assistant := some .codex, model := some "gpt-5.3-codex",
          codex_reasoning_effort := some .high } ]
      sessWit "B").1.sessionId = some "B" := by
  constructor
  · have h := (c7_resume_scope.2.1) "/work" 5
      [ { session_id := "A", saved_at := "t", working_dir := some "/other",
          title := "x", assistant := some .claude,
          model := some "claude-opus-4-6", codex_reasoning_effort := none } ]
      sessWit "A"
      { session_id := "A", saved_at := "t", working_dir := some "/other",
        title := "x", assistant := some .claude,
        model := some "claude-opus-4-6", codex_reasoning_effort := none }
      (by decide) (by decide) (by decide)
    rw [h.1]
  · have h := (c7_resume_scope.2.2) "/work" 5
      [ { session_id := "B", saved_at := "t", working_dir := some "/work",
          title := "y", assistant := some .codex, model := some "gpt-5.3-codex",
          codex_reasoning_effort := some .high } ]
      sessWit "B"
      { session_id := "B", saved_at := "t", working_dir := some "/work",
        title := "y", assistant := some .codex, model := some "gpt-5.3-codex",
        codex_reasoning_effort := some .high }
      .codex "gpt-5.3-codex"
      (by decide) (by decide) rfl rfl
    exact h.2.1

theorem upsertById_eq_none (sid : String) (e : SavedSession)
    (h : List SavedSession)
    (hnm : sid ∉ h.map (fun x => x.session_id)) :
    upsertById sid e h = none := by
  induction h with
  | nil => rfl
  | cons x xs ih =>
    simp only [List.map_cons, List.mem_cons] at hnm
    push_neg at hnm
    unfold upsertById
    rw [if_neg (fun hc => hnm.1 (by rw [hc])), ih hnm.2]
    rfl

theorem upsertById_isSome (sid : String) (e : SavedSession)
    (h : List SavedSession)
    (hmem : sid ∈ h.map (fun x => x.session_id)) :
    (upsertById sid e h).isSome = true := by
  induction h with
  | nil => simp at hmem
  | cons x xs ih =>
    simp only [List.map_cons, List.mem_cons] at hmem
    unfold upsertById
    by_cases hx : x.session_id = sid
    · rw [if_pos hx]
      rfl
    · rw [if_neg hx]
      rcases hmem with hmem | hmem
      · exact absurd hmem.symm hx
      · have := ih hmem
        cases hu : upsertById sid e xs with
        | none => rw [hu] at this; exact nomatch this
        | some r => rfl

theorem upsertById_ids (sid : String) (e : SavedSession)
    (he : e.session_id = sid) (h h2 : List SavedSession)
    (hu : upsertById sid e h = some h2) :
    h2.map (fun x => x.session_id) = h.map (fun x => x.session_id) := by
  induction h generalizing h2 with
  | nil => exact nomatch hu
  | cons x xs ih =>
    unfold upsertById at hu
    by_cases hx : x.session_id = sid
    · rw [if_pos hx] at hu
      cases hu
      simp only [List.map_cons, he, hx]
    · rw [if_neg hx] at hu
      cases hr : upsertById sid e xs with
      | none => rw [hr] at hu; exact nomatch hu
      | some r =>
        rw [hr] at hu
        cases hu
        simp only [List.map_cons, ih r hr]

theorem listTake_of_le {α : Type} (n : Nat) (l : List α)
    (h : l.length ≤ n) : l.take n = l := by
  induction l generalizing n with
  | nil => simp
  | cons x xs ih =>
    cases n with
    | zero => simp at h
    | succ m =>
      simp only [List.take_succ_cons]
      rw [ih m (by simpa using h)]

theorem saveSession_histInv (s : Session) (wd sa : String)
    (hist : List SavedSession) (hinv : histInv hist) :
    histInv (saveSession s wd sa hist) := by
  unfold saveSession
  cases hs : s.sessionId with
  | none => exact hinv
  | some sid =>
    dsimp only
    cases hu : upsertById sid (mkSavedEntry s sid wd sa) hist with
    | some h2 =>
      have hids := upsertById_ids sid (mkSavedEntry s sid wd sa) rfl hist
        h2 hu
      constructor
      · rw [List.length_take]
        exact Nat.min_le_left _ _
      · rw [List.map_take, hids]
        exact hinv.2.sublist (List.take_sublist _ _)
    | none =>
      have hnm : sid ∉ hist.map (fun x => x.session_id) := by
        intro hmem
        have := upsertById_isSome sid (mkSavedEntry s sid wd sa) hist hmem
        rw [hu] at this
        exact nomatch this
      constructor
      · rw [List.length_take]
        exact Nat.min_le_left _ _
      · rw [List.map_take]
        refine List.Nodup.sublist (List.take_sublist _ _) ?_
        simp only [List.map_cons]
        exact List.nodup_cons.mpr ⟨hnm, hinv.2⟩

theorem foldl_saveSession_histInv (wd : String)
    (l : List (Session × String)) :
    ∀ (h : List SavedSession), histInv h →
      histInv (l.foldl (fun h p => saveSession p.1 wd p.2 h) h) := by
  induction l with
  | nil => exact fun h hi => hi
  | cons p ps ih =>
    intro h hi
    exact ih _ (saveSession_histInv p.1 wd p.2 h hi)

/-- C8 (confirmed): starting from an empty history, any number of
`persist()` calls keeps the saved-session list at no more than 5 entries
with pairwise-distinct backend session ids; persisting an id already
present replaces its entry in place (the id list, hence every position,
is unchanged), while a new id is inserted at the front and the list
truncated to 5. -/
theorem c8_saved_history :
    (∀ (l : List (Session × String)) (wd : String),
      histInv (l.foldl (fun h p => saveSession p.1 wd p.2 h) [])) ∧
    (∀ (s : Session) (wd sa : String) (hist : List SavedSession)
        (sid : String),
      histInv hist → s.sessionId = some sid →
      ((sid ∈ hist.map (fun x => x.session_id) →
        (saveSession s wd sa hist).map (fun x => x.session_id) =
          hist.map (fun x => x.session_id)) ∧
       (sid ∉ hist.map (fun x => x.session_id) →
        saveSession s wd sa hist =
          (mkSavedEntry s sid wd sa :: hist).take MAX_SESSIONS))) := by
  constructor
  · intro l wd
    exact foldl_saveSession_histInv wd l [] ⟨by decide, List.nodup_nil⟩
  · intro s wd sa hist sid hinv hsid
    constructor
    · intro hmem
      unfold saveSession
      rw [hsid]
      dsimp only
      have hs := upsertById_isSome sid (mkSavedEntry s sid wd sa) hist hmem
      cases hu : upsertById sid (mkSavedEntry s sid wd sa) hist with
      | none => rw [hu] at hs; exact nomatch hs
      | some h2 =>
        dsimp only
        have hids := upsertById_ids sid (mkSavedEntry s sid wd sa) rfl hist
          h2 hu
        have hlen : h2.length = hist.length := by
          have := congrArg List.length hids
          simpa using this
        rw [listTake_of_le MAX_SESSIONS h2 (hlen ▸ hinv.1), hids]
    · intro hnm
      unfold saveSession
      rw [hsid]
      dsimp only
      rw [upsertById_eq_none sid (mkSavedEntry s sid wd sa) hist hnm]

/-- C8 witness: three persists (two with the same id) from an empty
history keep the invariant, and a persist of a fresh id prepends and
truncates. -/
theorem c8_witness :
    histInv ([({ sessWit with sessionId := some "A" }, "t1"),
              ({ sessWit with sessionId := some "A" }, "t2"),
              ({ sessWit with sessionId := some "B" }, "t3")].foldl
      (fun h p => saveSession p.1 "/w" p.2 h) []) ∧
    saveSession { sessWit with sessionId := some "A" } "/w" "t" [] =
      (mkSavedEntry { sessWit with sessionId := some "A" } "A" "/w" "t"
        :: []).take MAX_SESSIONS := by
  constructor
  · exact c8_saved_history.1 _ "/w"
  · exact (c8_saved_history.2 { sessWit with sessionId := some "A" } "/w"
      "t" [] "A" ⟨by decide, List.nodup_nil⟩ rfl).2 (by simp)

/-- C4 (corrected): `stop()` called while processing (message accepted,
no query running) sets the stop flag and returns `"pending"`; the turn
then aborts immediately at its pre-start check with the `Query cancelled`
error and clears the flag — emitting no status events at all (the claim's
"only done" is amended to "none": the pre-start throw happens before any
callback, including `done`).  Both adapters behave identically. -/
theorem c4_stop_pending (s : Session)
    (hrun : s.isQueryRunning = false) (hproc : s.isProcessing = true) :
    (stopSession s).2 = .pending ∧
    (stopSession s).1.stopRequested = true ∧
    (∀ (env : RunEnv) (msg : String) (now : Nat)
        (events : List ClaudeEvent),
      (claudeRun env (stopSession s).1 msg now events).out = [] ∧
      (claudeRun env (stopSession s).1 msg now events).res =
        .error "Query cancelled" ∧
      (claudeRun env (stopSession s).1 msg now events).sess.stopRequested =
        false) ∧
    (∀ (env : RunEnv) (msg : String) (now : Nat)
        (events : List CodexEvent),
      (codexRun env (stopSession s).1 msg now events).out = [] ∧
      (codexRun env (stopSession s).1 msg now events).res =
        .error "Query cancelled" ∧
      (codexRun env (stopSession s).1 msg now events).sess.stopRequested =
        false) := by
  have hstop : stopSession s = ({ s with stopRequested := true }, .pending) := by
    unfold stopSession
    rw [if_neg (by simp [hrun]), if_neg (by simp [hrun]), if_pos hproc]
  refine ⟨by rw [hstop], by rw [hstop], ?_, ?_⟩
  · intro env msg now events
    rw [hstop]
    dsimp only
    unfold claudeRun
    dsimp only
    rw [if_pos rfl]
    exact ⟨rfl, rfl, rfl⟩
  · intro env msg now events
    rw [hstop]
    dsimp only
    unfold codexRun
    dsimp only
    rw [if_pos rfl]
    exact ⟨rfl, rfl, rfl⟩

/-- C4 counterexample: after a pending stop, the turn emits no events at
all — in particular not the `done` event the claim says is the only one
emitted. -/
theorem c4_counterexample :
    (stopSession { sessWit with isProcessing := true }).2 = .pending ∧
    (claudeRun envWit
      (stopSession { sessWit with isProcessing := true }).1 "hi" 0
      [ { session_id := some "abc", kind := .assistant [.text "Hi"] } ]).out
      = [] ∧
    (claudeRun envWit
      (stopSession { sessWit with isProcessing := true }).1 "hi" 0
      [ { session_id := some "abc", kind := .assistant [.text "Hi"] } ]).out
      ≠ [StatusEvent.done] ∧
    (claudeRun envWit
      (stopSession { sessWit with isProcessing := true }).1 "hi" 0
      [ { session_id := some "abc", kind := .assistant [.text "Hi"] } ]).res
      = .error "Query cancelled" := by
  refine ⟨rfl, rfl, ?_, rfl⟩
  decide

/-- C4 witness: the amended behaviour at a concrete processing-state
session. -/
theorem c4_witness :
    (stopSession { sessWit with isProcessing := true }).2 = .pending ∧
    (claudeRun envWit
      (stopSession { sessWit with isProcessing := true }).1 "m" 3 []).out
      = [] := by
  have h := c4_stop_pending { sessWit with isProcessing := true } rfl rfl
  exact ⟨h.1, (h.2.2.1 envWit "m" 3 []).1⟩

/-- C2 (corrected): when a turn returns normally — normal completion, a
stop/interrupt break, the ask-user break, or a suppressed
cancellation-shaped error — the emitted sequence contains exactly one
`done`, as its final event.  When the turn propagates a fatal error
(unsafe-tool rejection, backend turn failure, or pre-start cancellation)
no `done` is emitted at all, which refutes the claim's "every sequence
ends with exactly one done". -/
theorem c2_done_terminal (env : RunEnv) (s : Session) (msg : String)
    (now : Nat) (es : List ClaudeEvent) (ces : List CodexEvent) :
    ((∀ t, (claudeRun env s msg now es).res = .ok t →
       ∃ pre, (claudeRun env s msg now es).out = pre ++ [.done] ∧
         StatusEvent.done ∉ pre) ∧
     (∀ m, (claudeRun env s msg now es).res = .error m →
       StatusEvent.done ∉ (claudeRun env s msg now es).out)) ∧
    ((∀ t, (codexRun env s msg now ces).res = .ok t →
       ∃ pre, (codexRun env s msg now ces).out = pre ++ [.done] ∧
         StatusEvent.done ∉ pre) ∧
     (∀ m, (codexRun env s msg now ces).res = .error m →
       StatusEvent.done ∉ (codexRun env s msg now ces).out)) := by
  have hfinC : ∀ (hst : LoopSt) (hout : List StatusEvent),
      StatusEvent.done ∉ hout →
      (∀ t, (claudeFinish env now hst hout).res = Except.ok t →
        ∃ pre, (claudeFinish env now hst hout).out =
          pre ++ [StatusEvent.done] ∧ StatusEvent.done ∉ pre) ∧
      (∀ m, (claudeFinish env now hst hout).res = Except.error m →
        StatusEvent.done ∉ (claudeFinish env now hst hout).out) := by
    intro hst hout hnd0
    constructor
    · intro t _
      obtain ⟨mid, hmid, hmnd⟩ := claudeFinish_shape env now hst hout
      refine ⟨hout ++ mid, by rw [hmid], ?_⟩
      intro h
      rcases List.mem_append.mp h with h | h
      · exact hnd0 h
      · exact hmnd h
    · intro m h
      obtain ⟨t0, ht0⟩ := claudeFinish_res env now hst hout
      rw [ht0] at h
      exact nomatch h
  have hfinX : ∀ (hst : LoopSt) (hout : List StatusEvent),
      StatusEvent.done ∉ hout →
      (∀ t, (codexFinish env now hst hout).res = Except.ok t →
        ∃ pre, (codexFinish env now hst hout).out =
          pre ++ [StatusEvent.done] ∧ StatusEvent.done ∉ pre) ∧
      (∀ m, (codexFinish env now hst hout).res = Except.error m →
        StatusEvent.done ∉ (codexFinish env now hst hout).out) := by
    intro hst hout hnd0
    constructor
    · intro t _
      obtain ⟨mid, hmid, hmnd⟩ := codexFinish_shape env now hst hout
      refine ⟨hout ++ mid, by rw [hmid], ?_⟩
      intro h
      rcases List.mem_append.mp h with h | h
      · exact hnd0 h
      · exact hmnd h
    · intro m h
      obtain ⟨t0, ht0⟩ := codexFinish_res env now hst hout
      rw [ht0] at h
      exact nomatch h
  constructor
  · unfold claudeRun
    dsimp only
    by_cases hstop : s.stopRequested = true
    · rw [if_pos hstop]
      exact ⟨fun t h => (nomatch h), fun m h => by simp⟩
    · rw [if_neg hstop]
      have hnd := claudeLoop_noDone env es (initLoopSt (claudeStart s now))
      rcases hl : claudeLoop env es (initLoopSt (claudeStart s now)) with
        ⟨st1, out1, ex⟩
      rw [hl] at hnd
      dsimp only at hnd
      cases ex with
      | raised m0 =>
        dsimp only
        split
        · exact hfinC st1 out1 hnd
        · exact ⟨fun t h => (nomatch h), fun m h => hnd⟩
      | finished => exact hfinC st1 out1 hnd
      | stopBreak => exact hfinC st1 out1 hnd
      | askBreak => exact hfinC st1 out1 hnd
      | completedBreak => exact hfinC st1 out1 hnd
  · unfold codexRun
    dsimp only
    by_cases hstop : s.stopRequested = true
    · rw [if_pos hstop]
      exact ⟨fun t h => (nomatch h), fun m h => by simp⟩
    · rw [if_neg hstop]
      have hnd := codexLoop_noDone env ces (initLoopSt (codexStart s now))
      rcases hl : codexLoop env ces (initLoopSt (codexStart s now)) with
        ⟨st1, out1, ex⟩
      rw [hl] at hnd
      dsimp only at hnd
      cases ex with
      | raised m0 =>
        dsimp only
        split
        · exact hfinX st1 out1 hnd
        · exact ⟨fun t h => (nomatch h), fun m h => hnd⟩
      | finished => exact hfinX st1 out1 hnd
      | stopBreak => exact hfinX st1 out1 hnd
      | askBreak => exact hfinX st1 out1 hnd
      | completedBreak => exact hfinX st1 out1 hnd

theorem captureSession_none (e : ClaudeEvent) (st : LoopSt)
    (h : e.session_id = none) : captureSession e st = st := by
  unfold captureSession
  split
  · next heq =>
    rw [h] at heq
    exact nomatch heq
  · rfl

/-- C9: a backend that emits one single text block of snapshot size and
then completes yields a final `segment_end` carrying exactly the full
block, whatever the throttle interval and step size are; the events
before it are only the synthetic prefix/tail `text` events. -/
theorem c9_final_segment (env : RunEnv) (s : Session) (msg t : String)
    (now : Nat)
    (hstop : s.stopRequested = false)
    (ht : t ≠ "")
    (hfb : env.stream.fallbackMinChars ≤ t.length)
    (hs1 : env.stopSeen 1 = false)
    (hs2 : env.stopSeen 2 = false) :
    ∃ pre,
      (claudeRun env s msg now
        [ { session_id := none, kind := .assistant [.text t] },
          { session_id := none, kind := .result none } ]).out =
        pre ++ [.segment_end t 0, .done] ∧
      (∀ c i, StatusEvent.segment_end c i ∉ pre) ∧
      (claudeRun env s msg now
        [ { session_id := none, kind := .assistant [.text t] },
          { session_id := none, kind := .result none } ]).res = .ok t := by
  have hpl : 0 < t.length := by
    cases hl : t.length with
    | zero => exact absurd (String.ext (List.length_eq_zero.mp hl)) ht
    | succ n => exact Nat.succ_pos n
  have hstep1 : claudeStep env
        { session_id := none, kind := .assistant [.text t] }
        (initLoopSt (claudeStart s now)) =
        ({ sess := claudeStart s now
           responseParts := [t]
           segId := 0
           segText := t
           lastTextUpdate := env.clock 0
           textCallbackCount := 1
           lastEmittedLen := max 1 (min env.stream.stepChars (t.length - 1))
           queryCompleted := false
           askUserTriggered := false
           clockIdx := 1
           pollIdx := 0
           eventIdx := 1
           savedLog := [] },
          [.text (strTake t (max 1 (min env.stream.stepChars (t.length - 1)))) 0],
          none) := by
    unfold claudeStep
    dsimp only [initLoopSt]
    rw [if_neg (by simp [hs1])]
    rw [captureSession_none _ _ rfl]
    simp only [processBlocks]
    unfold emitTextBlock
    dsimp only
    rw [str_empty_append]
    rw [if_pos (show 0 = 0 ∧ env.stream.fallbackMinChars ≤ t.length from ⟨rfl, hfb⟩)]
    dsimp only
    simp
  have hstep2 : claudeStep env
        { session_id := none, kind := .result none }
        { sess := claudeStart s now
          responseParts := [t]
          segId := 0
          segText := t
          lastTextUpdate := env.clock 0
          textCallbackCount := 1
          lastEmittedLen := max 1 (min env.stream.stepChars (t.length - 1))
          queryCompleted := false
          askUserTriggered := false
          clockIdx := 1
          pollIdx := 0
          eventIdx := 1
          savedLog := [] } =
        ({ sess := claudeStart s now
           responseParts := [t]
           segId := 0
           segText := t
           lastTextUpdate := env.clock 0
           textCallbackCount := 1
           lastEmittedLen := max 1 (min env.stream.stepChars (t.length - 1))
           queryCompleted := true
           askUserTriggered := false
           clockIdx := 1
           pollIdx := 0
           eventIdx := 2
           savedLog := [] }, [], none) := by
    unfold claudeStep
    dsimp only
    rw [if_neg (by simp [hs2])]
    rw [captureSession_none _ _ rfl]
  have hloop : claudeLoop env
        [ { session_id := none, kind := .assistant [.text t] },
          { session_id := none, kind := .result none } ]
        (initLoopSt (claudeStart s now)) =
        ({ sess := claudeStart s now
           responseParts := [t]
           segId := 0
           segText := t
           lastTextUpdate := env.clock 0
           textCallbackCount := 1
           lastEmittedLen := max 1 (min env.stream.stepChars (t.length - 1))
           queryCompleted := true
           askUserTriggered := false
           clockIdx := 1
           pollIdx := 0
           eventIdx := 2
           savedLog := [] },
          [.text (strTake t (max 1 (min env.stream.stepChars (t.length - 1)))) 0],
          .finished) := by
    simp only [claudeLoop]
    rw [hstep1]
    dsimp only
    rw [hstep2]
    dsimp only
    simp
  have hjoin : joinOr [t] "No response from Claude." = t := by
    unfold joinOr
    dsimp only
    have hj : String.join [t] = t := by
      show String.join ([t] : List String) = t
      unfold String.join
      dsimp only [List.foldl]
      exact str_empty_append t
    rw [hj, if_neg ht]
  refine ⟨[.text (strTake t (max 1 (min env.stream.stepChars (t.length - 1)))) 0]
      ++ progressiveTail env t 0
        (max 1 (min env.stream.stepChars (t.length - 1))), ?_, ?_, ?_⟩
  · unfold claudeRun
    dsimp only
    rw [if_neg (by simp [hstop]), hloop]
    dsimp only
    unfold claudeFinish
    dsimp only
    rw [if_neg (by simp)]
    rw [if_pos (by simpa using ht)]
  · intro c i hmem
    rcases List.mem_append.mp hmem with hm | hm
    · have h0 := List.mem_singleton.mp hm
      exact StatusEvent.noConfusion h0
    · exact progressiveTail_noSegEnd env t 0 _ c i hm
  · unfold claudeRun
    dsimp only
    rw [if_neg (by simp [hstop]), hloop]
    dsimp only
    unfold claudeFinish
    dsimp only
    rw [if_neg (by simp)]
    rw [if_pos (by simpa using ht)]
    dsimp only
    rw [hjoin]

/-- C9 witness: a concrete 6-character block with snapshot threshold 4,
step 2, emitted then completed; the final `segment_end` carries the full
block. -/
theorem c9_witness :
    ∃ pre,
      (claudeRun
        { envWit with stream :=
            { fallbackMinChars := 4, stepChars := 2, throttleMs := 1000, stepDelayMs := 80 } }
        sessWit "hi" 0
        [ { session_id := none, kind := .assistant [.text "abcdef"] },
          { session_id := none, kind := .result none } ]).out =
        pre ++ [.segment_end "abcdef" 0, .done] ∧
      (∀ c i, StatusEvent.segment_end c i ∉ pre) ∧
      (claudeRun
        { envWit with stream :=
            { fallbackMinChars := 4, stepChars := 2, throttleMs := 1000, stepDelayMs := 80 } }
        sessWit "hi" 0
        [ { session_id := none, kind := .assistant [.text "abcdef"] },
          { session_id := none, kind := .result none } ]).res = .ok "abcdef" :=
  c9_final_segment
    { envWit with stream :=
        { fallbackMinChars := 4, stepChars := 2, throttleMs := 1000, stepDelayMs := 80 } }
    sessWit "hi" "abcdef" 0 rfl (by decide) (by decide) rfl rfl

theorem captureSession_flags (e : ClaudeEvent) (st : LoopSt) :
    (captureSession e st).queryCompleted = st.queryCompleted ∧
    (captureSession e st).askUserTriggered = st.askUserTriggered := by
  unfold captureSession
  split <;> exact ⟨rfl, rfl⟩

/-- C1: an unsafe shell command — on backend A a `Bash` tool_use block,
on backend B a `command_execution` item — makes the runner emit the
blocking `tool` event and raise the fatal unsafe-command error, aborting
the turn: every event after the offending one is ignored, whatever it
is. -/
theorem c1_unsafe_command (env : RunEnv) (s : Session) (msg : String)
    (now : Nat) (a b : List ClaudeEvent) (ca cb : List CodexEvent)
    (cmd reason fp : String) (sid : Option String)
    (st1 st2 : LoopSt) (out1 out2 : List StatusEvent)
    (hsafe : checkCommandSafety env.sec cmd = (false, reason))
    (hstop : s.stopRequested = false)
    (hsac : env.stopAtCatch = false)
    (hC : claudeLoop env a (initLoopSt (claudeStart s now)) =
      (st1, out1, .finished))
    (hCs : env.stopSeen (st1.eventIdx + 1) = false)
    (hq : st1.queryCompleted = false)
    (ha : st1.askUserTriggered = false)
    (hX : codexLoop env ca (initLoopSt (codexStart s now)) =
      (st2, out2, .finished))
    (hXs : env.stopSeen (st2.eventIdx + 1) = false) :
    (claudeRun env s msg now
        (a ++ { session_id := sid,
                kind := .assistant [.tool_use "Bash" cmd fp] } :: b)).out =
      out1 ++ [.tool ("BLOCKED: " ++ reason)] ∧
    (claudeRun env s msg now
        (a ++ { session_id := sid,
                kind := .assistant [.tool_use "Bash" cmd fp] } :: b)).res =
      .error ("Unsafe command blocked: " ++ reason) ∧
    (codexRun env s msg now
        (ca ++ .item_completed (some (.command_execution cmd)) :: cb)).out =
      out2 ++ [.tool ("BLOCKED: " ++ reason)] ∧
    (codexRun env s msg now
        (ca ++ .item_completed (some (.command_execution cmd)) :: cb)).res =
      .error ("Unsafe command blocked: " ++ reason) := by
  have h1 : (checkCommandSafety env.sec cmd).1 = false := by rw [hsafe]
  have h2 : (checkCommandSafety env.sec cmd).2 = reason := by rw [hsafe]
  have hstep : claudeStep env
      { session_id := sid, kind := .assistant [.tool_use "Bash" cmd fp] }
      st1 =
      (captureSession
          { session_id := sid,
            kind := .assistant [.tool_use "Bash" cmd fp] }
          { st1 with eventIdx := st1.eventIdx + 1 },
        [StatusEvent.tool ("BLOCKED: " ++ reason)],
        some (.raised ("Unsafe command blocked: " ++ reason))) := by
    unfold claudeStep
    dsimp only
    rw [if_neg (by simp [hCs])]
    simp only [processBlocks, processToolUse]
    rw [if_pos ⟨trivial, h1⟩, h2]
  have htail : claudeLoop env
      ({ session_id := sid,
         kind := .assistant [.tool_use "Bash" cmd fp] } :: b) st1 =
      (captureSession
          { session_id := sid,
            kind := .assistant [.tool_use "Bash" cmd fp] }
          { st1 with eventIdx := st1.eventIdx + 1 },
        [StatusEvent.tool ("BLOCKED: " ++ reason)],
        .raised ("Unsafe command blocked: " ++ reason)) := by
    simp only [claudeLoop]
    rw [hstep]
  have hfull : claudeLoop env
      (a ++ { session_id := sid,
              kind := .assistant [.tool_use "Bash" cmd fp] } :: b)
      (initLoopSt (claudeStart s now)) =
      (captureSession
          { session_id := sid,
            kind := .assistant [.tool_use "Bash" cmd fp] }
          { st1 with eventIdx := st1.eventIdx + 1 },
        out1 ++ [StatusEvent.tool ("BLOCKED: " ++ reason)],
        .raised ("Unsafe command blocked: " ++ reason)) := by
    rw [claudeLoop_append env a _ _ _ _ hC, htail]
  have hcap := captureSession_flags
    { session_id := sid, kind := .assistant [.tool_use "Bash" cmd fp] }
    { st1 with eventIdx := st1.eventIdx + 1 }
  have hnosup : ¬(cancelShaped ("Unsafe command blocked: " ++ reason) ∧
      ((captureSession
          { session_id := sid,
            kind := .assistant [.tool_use "Bash" cmd fp] }
          { st1 with eventIdx := st1.eventIdx + 1 }).queryCompleted ∨
        (captureSession
          { session_id := sid,
            kind := .assistant [.tool_use "Bash" cmd fp] }
          { st1 with eventIdx := st1.eventIdx + 1 }).askUserTriggered ∨
        env.stopAtCatch)) := by
    rintro ⟨-, hd | hd | hd⟩
    · rw [hcap.1] at hd
      dsimp only at hd
      rw [hq] at hd
      exact nomatch hd
    · rw [hcap.2] at hd
      dsimp only at hd
      rw [ha] at hd
      exact nomatch hd
    · rw [hsac] at hd
      exact nomatch hd
  have hXstep : codexStep env
      (.item_completed (some (.command_execution cmd))) st2 =
      ({ st2 with eventIdx := st2.eventIdx + 1 },
        [StatusEvent.tool ("BLOCKED: " ++ reason)],
        some (.raised ("Unsafe command blocked: " ++ reason))) := by
    unfold codexStep
    dsimp only
    rw [if_neg (by simp [hXs])]
    rw [if_pos h1, h2]
  have hXtail : codexLoop env
      (.item_completed (some (.command_execution cmd)) :: cb) st2 =
      ({ st2 with eventIdx := st2.eventIdx + 1 },
        [StatusEvent.tool ("BLOCKED: " ++ reason)],
        .raised ("Unsafe command blocked: " ++ reason)) := by
    simp only [codexLoop]
    rw [hXstep]
  have hXfull : codexLoop env
      (ca ++ .item_completed (some (.command_execution cmd)) :: cb)
      (initLoopSt (codexStart s now)) =
      ({ st2 with eventIdx := st2.eventIdx + 1 },
        out2 ++ [StatusEvent.tool ("BLOCKED: " ++ reason)],
        .raised ("Unsafe command blocked: " ++ reason)) := by
    rw [codexLoop_append env ca _ _ _ _ hX, hXtail]
  have hXnosup : ¬(cancelShaped ("Unsafe command blocked: " ++ reason) ∧
      env.stopAtCatch) := by
    rintro ⟨-, hd⟩
    rw [hsac] at hd
    exact nomatch hd
  refine ⟨?_, ?_, ?_, ?_⟩
  · unfold claudeRun
    dsimp only
    rw [if_neg (by simp [hstop]), hfull]
    dsimp only
    rw [if_neg hnosup]
  · unfold claudeRun
    dsimp only
    rw [if_neg (by simp [hstop]), hfull]
    dsimp only
    rw [if_neg hnosup]
  · unfold codexRun
    dsimp only
    rw [if_neg (by simp [hstop]), hXfull]
    dsimp only
    rw [if_neg hXnosup]
  · unfold codexRun
    dsimp only
    rw [if_neg (by simp [hstop]), hXfull]
    dsimp only
    rw [if_neg hXnosup]

/-- C1 witness: the concrete unsafe command `rm -rf /` at the head of
the stream, followed by a further assistant event that is ignored. -/
theorem c1_witness :
    (claudeRun envWit sessWit "hi" 0
        ([] ++ { session_id := some "abc",
                 kind := .assistant [.tool_use "Bash" "rm -rf /" ""] } ::
          [ { session_id := some "abc",
              kind := .assistant [.text "after"] } ])).out =
      [] ++ [.tool ("BLOCKED: " ++ "Blocked pattern: rm -rf /")] ∧
    (claudeRun envWit sessWit "hi" 0
        ([] ++ { session_id := some "abc",
                 kind := .assistant [.tool_use "Bash" "rm -rf /" ""] } ::
          [ { session_id := some "abc",
              kind := .assistant [.text "after"] } ])).res =
      .error ("Unsafe command blocked: " ++ "Blocked pattern: rm -rf /") ∧
    (codexRun envWit sessWit "hi" 0
        ([] ++ .item_completed (some (.command_execution "rm -rf /")) ::
          [CodexEvent.turn_completed])).out =
      [] ++ [.tool ("BLOCKED: " ++ "Blocked pattern: rm -rf /")] ∧
    (codexRun envWit sessWit "hi" 0
        ([] ++ .item_completed (some (.command_execution "rm -rf /")) ::
          [CodexEvent.turn_completed])).res =
      .error ("Unsafe command blocked: " ++ "Blocked pattern: rm -rf /") :=
  c1_unsafe_command envWit sessWit "hi" 0 []
    [ { session_id := some "abc", kind := .assistant [.text "after"] } ]
    [] [CodexEvent.turn_completed]
    "rm -rf /" "Blocked pattern: rm -rf /" "" (some "abc")
    (initLoopSt (claudeStart sessWit 0)) (initLoopSt (codexStart sessWit 0))
    [] []
    (by decide) rfl rfl rfl rfl rfl rfl rfl rfl

/-- C5: the error-suppression rule of both adapters.  If the event loop
raises with message `m`, the exception is swallowed (result ok, lastError
and lastErrorTime left clear) exactly when the message is
cancellation/abort-shaped and the turn had completed, or the ask-user
wait was triggered, or a stop was observed at catch time; otherwise the
error propagates and lastError/lastErrorTime are recorded.  For backend
B the code only tests the stop observation, but at a backend-B raise the
completion and ask-user flags are necessarily still false, so the stated
three-way condition is equivalent there too. -/
theorem c5_error_suppression (env : RunEnv) (s : Session) (msg : String)
    (now : Nat) (es : List ClaudeEvent) (ces : List CodexEvent)
    (st1 st2 : LoopSt) (out1 out2 : List StatusEvent) (m1 m2 : String)
    (hstop : s.stopRequested = false)
    (hC : claudeLoop env es (initLoopSt (claudeStart s now)) =
      (st1, out1, .raised m1))
    (hX : codexLoop env ces (initLoopSt (codexStart s now)) =
      (st2, out2, .raised m2)) :
    ((cancelShaped m1 ∧
        (st1.queryCompleted ∨ st1.askUserTriggered ∨ env.stopAtCatch)) →
      (∃ t, (claudeRun env s msg now es).res = .ok t) ∧
      (claudeRun env s msg now es).sess.lastError = none ∧
      (claudeRun env s msg now es).sess.lastErrorTime = none) ∧
    (¬(cancelShaped m1 ∧
        (st1.queryCompleted ∨ st1.askUserTriggered ∨ env.stopAtCatch)) →
      (claudeRun env s msg now es).res = .error m1 ∧
      (claudeRun env s msg now es).sess.lastError = some (errTrunc m1) ∧
      (claudeRun env s msg now es).sess.lastErrorTime = some now) ∧
    ((cancelShaped m2 ∧
        (st2.queryCompleted ∨ st2.askUserTriggered ∨ env.stopAtCatch)) →
      (∃ t, (codexRun env s msg now ces).res = .ok t) ∧
      (codexRun env s msg now ces).sess.lastError = none ∧
      (codexRun env s msg now ces).sess.lastErrorTime = none) ∧
    (¬(cancelShaped m2 ∧
        (st2.queryCompleted ∨ st2.askUserTriggered ∨ env.stopAtCatch)) →
      (codexRun env s msg now ces).res = .error m2 ∧
      (codexRun env s msg now ces).sess.lastError = some (errTrunc m2) ∧
      (codexRun env s msg now ces).sess.lastErrorTime = some now) := by
  have hflags := codexLoop_flags env ces (initLoopSt (codexStart s now))
  rw [hX] at hflags
  simp only [initLoopSt] at hflags
  have hCrun : claudeRun env s msg now es =
      (if cancelShaped m1 ∧
          (st1.queryCompleted ∨ st1.askUserTriggered ∨ env.stopAtCatch) then
        claudeFinish env now st1 out1
      else
        { out := out1
          sess := { finallyFields st1.sess with
            lastError := some (errTrunc m1), lastErrorTime := some now }
          res := .error m1 }) := by
    unfold claudeRun
    dsimp only
    rw [if_neg (by simp [hstop]), hC]
  have hXrun : codexRun env s msg now ces =
      (if cancelShaped m2 ∧ env.stopAtCatch then
        codexFinish env now st2 out2
      else
        { out := out2
          sess := { finallyFields st2.sess with
            lastError := some (errTrunc m2), lastErrorTime := some now }
          res := .error m2 }) := by
    unfold codexRun
    dsimp only
    rw [if_neg (by simp [hstop]), hX]
  refine ⟨?_, ?_, ?_, ?_⟩
  · intro hsup
    rw [hCrun, if_pos hsup]
    exact ⟨claudeFinish_res env now st1 out1,
      (claudeFinish_sess env now st1 out1).1,
      (claudeFinish_sess env now st1 out1).2⟩
  · intro hsup
    rw [hCrun, if_neg hsup]
    exact ⟨rfl, rfl, rfl⟩
  · rintro ⟨hca, hq | ha | hsc⟩
    · rw [hflags.1] at hq
      exact nomatch hq
    · rw [hflags.2] at ha
      exact nomatch ha
    · rw [hXrun, if_pos ⟨hca, hsc⟩]
      exact ⟨codexFinish_res env now st2 out2,
        (codexFinish_sess env now st2 out2).1,
        (codexFinish_sess env now st2 out2).2⟩
  · intro hsup
    have hn : ¬(cancelShaped m2 ∧ env.stopAtCatch) :=
      fun h => hsup ⟨h.1, Or.inr (Or.inr h.2)⟩
    rw [hXrun, if_neg hn]
    exact ⟨rfl, rfl, rfl⟩

/-- C5 witness: a non-cancellation-shaped raise on each adapter — an
unsafe-command rejection on backend A, a turn failure on backend B —
propagates and records the truncated error. -/
theorem c5_witness :
    (claudeRun envWit sessWit "hi" 0
      [ { session_id := some "abc",
          kind := .assistant [.tool_use "Bash" "rm -rf /" ""] } ]).res =
      .error "Unsafe command blocked: Blocked pattern: rm -rf /" ∧
    (claudeRun envWit sessWit "hi" 0
      [ { session_id := some "abc",
          kind := .assistant [.tool_use "Bash" "rm -rf /" ""] } ]).sess.lastError
      = some (errTrunc "Unsafe command blocked: Blocked pattern: rm -rf /") ∧
    (codexRun envWit sessWit "hi" 0 [.turn_failed "boom"]).res =
      .error "boom" ∧
    (codexRun envWit sessWit "hi" 0
      [.turn_failed "boom"]).sess.lastError = some (errTrunc "boom") := by
  have h := c5_error_suppression envWit sessWit "hi" 0
    [ { session_id := some "abc",
        kind := .assistant [.tool_use "Bash" "rm -rf /" ""] } ]
    [.turn_failed "boom"] _ _ _ _ _ _ rfl rfl rfl
  have h1 := h.2.1 (by decide)
  have h2 := h.2.2.2 (by decide)
  exact ⟨h1.1, h1.2.1, h2.1, h2.2.1⟩

/-- C2 counterexample: a backend turn-failure sequence — the propagated
error aborts the turn before the `done` emission, so the emitted
sequence contains no `done` at all, refuting "exactly one `done`" for
such sequences. -/
theorem c2_counterexample :
    (codexRun envWit sessWit "hi" 0 [.turn_failed "boom"]).out = [] ∧
    (codexRun envWit sessWit "hi" 0
      [.turn_failed "boom"]).out.count StatusEvent.done = 0 ∧
    (codexRun envWit sessWit "hi" 0 [.turn_failed "boom"]).res =
      .error "boom" :=
  ⟨rfl, rfl, rfl⟩

/-- C2 witness: a normally-completed turn ends with its single `done`. -/
theorem c2_witness :
    ∃ pre, (claudeRun envWit sessWit "hello" 7
      [ { session_id := some "abc", kind := .assistant [.text "Hi there!"] },
        { session_id := some "abc", kind := .result none } ]).out =
      pre ++ [StatusEvent.done] ∧ StatusEvent.done ∉ pre :=
  (c2_done_terminal envWit sessWit "hello" 7
    [ { session_id := some "abc", kind := .assistant [.text "Hi there!"] },
      { session_id := some "abc", kind := .result none } ] []).1.1
    "Hi there!" rfl

end Bot
